import Mathlib

/-!
# scidb4gdal: a shallow embedding of the SciDB raster driver

Sources embedded here:

* `src/shimclient.h`: the array metadata model (`SciDBAttribute`, `SciDBDimension`,
  `SciDBArray`, `SciDBSpatialReference`, `SciDBSpatialArray`) with `getFormatString`,
  `isSpatial` and the axis resolution (`deriveDimensionIndexes` and its getters), and the
  endpoint constants `SHIMENDPOINT_*`;
* `src/shim_client_structs.h`: `ConnectionPars` and its `parseConnectionString`,
  `SelectProperties` and its `parsePropertiesString`;
* `src/scidbdriver.cpp`: the constructors of `SciDBRasterBand` and `SciDBDataset`,
  `SciDBRasterBand::IReadBlock`, `SciDBDataset::CreateCopy`, `SciDBDataset::Open`, and the
  file's own `ConnectionPars` (here `scidbdriver.ConnectionPars`).

Conventions of the embedding.

* `std::string` is `String`, `std::vector` is `List`; an access `v[i]` outside the vector is
  undefined behaviour and makes the embedded function return `none`.
* Machine integers are `Int`/`Nat` values reduced explicitly: `toInt32` for `int`,
  `toUInt32` for `uint32_t`, `toSizeT` for `size_t`, `toUInt16` for `uint16_t`.  A signed
  overflow (undefined in C++) is modelled as wrapping.
* Memory buffers are lists of bytes; `memcpy` outside either buffer returns `none`.
* A private mutable member (the cached axis indexes) is explicit state: the function returns
  the updated object next to its result.
* What `utils.h` and `affinetransform.h` declare is not part of the sources; the constants
  and functions of `utils.h` that the embedded code uses are the fields of `Utils`.
  `Utils::error` and `Utils::debug` report a message and return.
-/

set_option autoImplicit false

namespace scidb4gdal

/-! ## Machine integers -/

/-- Value of a C++ `int` (32 bit, two's complement) holding the mathematical value `z`. -/
def toInt32 (z : Int) : Int := (z + 2147483648) % 4294967296 - 2147483648

/-- Value of a `uint32_t` holding the mathematical value `z`. -/
def toUInt32 (z : Int) : Int := z % 4294967296

/-- Value of a `uint16_t` holding the mathematical value `z`. -/
def toUInt16 (z : Int) : Int := z % 65536

/-- Value of a `size_t` (64 bit) holding the mathematical value `z`. -/
def toSizeT (z : Int) : Int := z % 18446744073709551616

/-! ## `shimclient.h`: array metadata -/

/-- Metadata of a SciDB array attribute (`struct SciDBAttribute`). -/
structure SciDBAttribute where
  name : String
  typeId : String
  nullable : Bool
deriving Repr, DecidableEq

/-- Metadata of a SciDB array dimension (`struct SciDBDimension`). -/
structure SciDBDimension where
  name : String
  low : Int
  high : Int
  chunksize : Nat
  typeId : String
deriving Repr, DecidableEq

/-- Modelled from the spec: `affinetransform.h` is not among the sources.  The six
coefficients `(x0, a11, a12, y0, a21, a22)` of the affine geotransform; the embedded code only
stores and copies them, so a coefficient is represented by the rational it denotes. -/
structure AffineTransform where
  _x0 : Rat
  _a11 : Rat
  _a12 : Rat
  _y0 : Rat
  _a21 : Rat
  _a22 : Rat
deriving Repr, DecidableEq

/-- General metadata of a SciDB array (`struct SciDBArray`). -/
structure SciDBArray where
  name : String
  attrs : List SciDBAttribute
  dims : List SciDBDimension
deriving Repr, DecidableEq

/-- Spatial reference of a SciDB array (`struct SciDBSpatialReference`). -/
structure SciDBSpatialReference where
  srtext : String
  proj4text : String
  xdim : String
  ydim : String
  auth_name : String
  auth_srid : Nat
  affineTransform : AffineTransform
deriving Repr, DecidableEq

/-- Metadata of a spatially referenced array (`struct SciDBSpatialArray`), with its two
private members `_x_idx` and `_y_idx`. -/
structure SciDBSpatialArray extends SciDBArray, SciDBSpatialReference where
  _x_idx : Int
  _y_idx : Int
deriving Repr, DecidableEq

/-- What the embedded code takes from `utils.h`, which is not among the sources: the default
dimension names, the default chunk sizes, the byte width of a SciDB type (a `size_t`) and the
two mappings between GDAL data types (their enumeration values) and SciDB type names. -/
structure Utils where
  SCIDB4GDAL_DEFAULT_XDIMNAME : String
  SCIDB4GDAL_DEFAULT_YDIMNAME : String
  SCIDB4GDAL_DEFAULT_BLOCKSIZE_X : Nat
  SCIDB4GDAL_DEFAULT_BLOCKSIZE_Y : Nat
  scidbTypeIdBytes : String → Nat
  gdalTypeToSciDBTypeId : Nat → String
  scidbTypeIdToGDALType : String → Nat

/-- The loop `for (i = start; ...; ++i)` run for `n` iterations: `body i` is applied to the
state for `i = start, start+1, ...`; a `none` (undefined behaviour in the body) ends it. -/
def forLoop {σ : Type} (body : Nat → σ → Option σ) : Nat → Nat → σ → Option σ
  | 0, _, s => some s
  | n + 1, i, s => (body i s).bind (forLoop body n (i + 1))

/-- Loop of `SciDBArray::getFormatString`, `for (uint32_t i = 0; i < attrs.size() - 1; ++i)`:
`bound` is the value of `attrs.size() - 1` and `fuel` bounds the number of loop tests. -/
def SciDBArray.getFormatString.loop (attrs : List SciDBAttribute) (bound : Int) :
    Nat → Int → String → Option String
  | 0, _, _ => none
  | fuel + 1, i, s =>
    if i < bound then
      match attrs[i.toNat]? with
      | none => none
      | some a => loop attrs bound fuel (toUInt32 (i + 1)) (s ++ a.typeId ++ ",")
    else some s

/-- `SciDBArray::getFormatString` (shimclient.h, lines 105-114).  `attrs.size() - 1` is
computed in `size_t`; reading `attrs[i]` past the end is undefined (`none`).  The loop makes
at most `attrs.size()` tests before it ends or reads past the end, unless the 32-bit counter
wraps, in which case it never ends (`none` as well). -/
def SciDBArray.getFormatString (a : SciDBArray) : Option String :=
  let bound := toSizeT ((a.attrs.length : Int) - 1)
  match SciDBArray.getFormatString.loop a.attrs bound (a.attrs.length + 1) 0 "(" with
  | none => none
  | some s =>
    match a.attrs[(toSizeT ((a.attrs.length : Int) - 1)).toNat]? with
    | none => none
    | some last => some (s ++ last.typeId ++ ")")

/-- `SciDBSpatialReference::isSpatial` (shimclient.h, lines 141-143). -/
def SciDBSpatialReference.isSpatial (r : SciDBSpatialReference) : Bool :=
  r.xdim != "" && r.ydim != "" && (r.srtext != "" || r.proj4text != "")

/-- The constructor `SciDBSpatialArray() : _x_idx(-1), _y_idx(-1)`: every string and vector
member is empty.  `auth_srid` is left uninitialised by the source and the default
`AffineTransform` is declared in `affinetransform.h`; both are arguments here. -/
def SciDBSpatialArray.new (auth_srid : Nat) (t : AffineTransform) : SciDBSpatialArray where
  name := ""
  attrs := []
  dims := []
  srtext := ""
  proj4text := ""
  xdim := ""
  ydim := ""
  auth_name := ""
  auth_srid := auth_srid
  affineTransform := t
  _x_idx := -1
  _y_idx := -1

/-- Body of the two loops of `deriveDimensionIndexes`: `if (dims[i].name == xname) _x_idx = i;
if (dims[i].name == yname) _y_idx = i;` (`dims` is not changed in between, so `dims[i]` is read
once). -/
def SciDBSpatialArray.deriveDimensionIndexes.body (xname yname : String) (i : Nat)
    (a : SciDBSpatialArray) : Option SciDBSpatialArray :=
  match a.dims[i]? with
  | none => none
  | some d =>
    let a1 := if d.name = xname then { a with _x_idx := (i : Int) } else a
    some (if d.name = yname then { a1 with _y_idx := (i : Int) } else a1)

/-- `SciDBSpatialArray::deriveDimensionIndexes` (shimclient.h, lines 188-205). -/
def SciDBSpatialArray.deriveDimensionIndexes (U : Utils) (a : SciDBSpatialArray) :
    Option SciDBSpatialArray :=
  let a0 := { a with _x_idx := 0, _y_idx := 1 }
  if a0.xdim ≠ "" ∧ a0.ydim ≠ "" then
    forLoop (SciDBSpatialArray.deriveDimensionIndexes.body a0.xdim a0.ydim) 2 0 a0
  else
    forLoop (SciDBSpatialArray.deriveDimensionIndexes.body U.SCIDB4GDAL_DEFAULT_XDIMNAME
      U.SCIDB4GDAL_DEFAULT_YDIMNAME) 2 0 a0

/-- Indexing `dims[idx]` with an `int` index: outside the vector it is undefined. -/
def dimAt (dims : List SciDBDimension) (idx : Int) : Option SciDBDimension :=
  if 0 ≤ idx then dims[idx.toNat]? else none

/-- `SciDBSpatialArray::getXDimIdx` (shimclient.h, lines 172-175). -/
def SciDBSpatialArray.getXDimIdx (U : Utils) (a : SciDBSpatialArray) :
    Option (Int × SciDBSpatialArray) :=
  match (if a._x_idx < 0 then a.deriveDimensionIndexes U else some a) with
  | none => none
  | some a1 => some (a1._x_idx, a1)

/-- `SciDBSpatialArray::getYDimIdx` (shimclient.h, lines 178-181). -/
def SciDBSpatialArray.getYDimIdx (U : Utils) (a : SciDBSpatialArray) :
    Option (Int × SciDBSpatialArray) :=
  match (if a._y_idx < 0 then a.deriveDimensionIndexes U else some a) with
  | none => none
  | some a1 => some (a1._y_idx, a1)

/-- `SciDBSpatialArray::getXDim` (shimclient.h, lines 167-170). -/
def SciDBSpatialArray.getXDim (U : Utils) (a : SciDBSpatialArray) :
    Option (SciDBDimension × SciDBSpatialArray) :=
  match (if a._x_idx < 0 then a.deriveDimensionIndexes U else some a) with
  | none => none
  | some a1 =>
    match dimAt a1.dims a1._x_idx with
    | none => none
    | some d => some (d, a1)

/-- `SciDBSpatialArray::getYDim` (shimclient.h, lines 163-166). -/
def SciDBSpatialArray.getYDim (U : Utils) (a : SciDBSpatialArray) :
    Option (SciDBDimension × SciDBSpatialArray) :=
  match (if a._y_idx < 0 then a.deriveDimensionIndexes U else some a) with
  | none => none
  | some a1 =>
    match dimAt a1.dims a1._y_idx with
    | none => none
    | some d => some (d, a1)

/-! ## `shimclient.h`: endpoints of the web service -/

/-- `SHIMENDPOINT_NEW_SESSION` (shimclient.h, line 43). -/
def SHIMENDPOINT_NEW_SESSION : String := "/new_session"

/-- `SHIMENDPOINT_EXECUTEQUERY` (shimclient.h, line 44). -/
def SHIMENDPOINT_EXECUTEQUERY : String := "/execute_query"

/-- `SHIMENDPOINT_READ_LINES` (shimclient.h, line 45); the literal ends in a blank. -/
def SHIMENDPOINT_READ_LINES : String := "/read_lines "

/-- `SHIMENDPOINT_READ_BYTES` (shimclient.h, line 46). -/
def SHIMENDPOINT_READ_BYTES : String := "/read_bytes"

/-- `SHIMENDPOINT_RELEASE_SESSION` (shimclient.h, line 47). -/
def SHIMENDPOINT_RELEASE_SESSION : String := "/release_session"

/-- `SHIMENDPOINT_LOGIN` (shimclient.h, line 48). -/
def SHIMENDPOINT_LOGIN : String := "/login"

/-- `SHIMENDPOINT_LOGOUT` (shimclient.h, line 49). -/
def SHIMENDPOINT_LOGOUT : String := "/logout"

/-- `SHIMENDPOINT_UPLOAD_FILE` (shimclient.h, line 50). -/
def SHIMENDPOINT_UPLOAD_FILE : String := "/upload_file"

/-- `SHIMENDPOINT_VERSION` (shimclient.h, line 51). -/
def SHIMENDPOINT_VERSION : String := "/version"

/-! ## `shim_client_structs.h`: connection parameters -/

/-- `boost::split (out, s, boost::is_any_of (delims))` on the characters of a string: the
pieces between the delimiters, empty pieces included (an empty string gives one empty
piece).  A `std::string` is read as the list of its bytes, one `Char` each. -/
def split (delims : List Char) : List Char → List (List Char)
  | [] => [[]]
  | c :: cs =>
    if c ∈ delims then [] :: split delims cs
    else
      match split delims cs with
      | [] => [[c]]
      | t :: ts => (c :: t) :: ts

/-- Value of a string of decimal digits; `none` for an empty string or another character. -/
def digits : List Char → Option Nat
  | [] => none
  | cs => cs.foldlM (fun n c => if c.isDigit then some (10 * n + (c.toNat - 48)) else none) 0

/-- `boost::lexical_cast<int>`: the `int` a string denotes (an optional sign, then decimal
digits); `none` stands for the exception `bad_lexical_cast`. -/
def lexical_cast_int : List Char → Option Int
  | '-' :: cs => (digits cs).bind (fun n => if n ≤ 2147483648 then some (-(n : Int)) else none)
  | '+' :: cs => (digits cs).bind (fun n => if n ≤ 2147483647 then some (n : Int) else none)
  | cs => (digits cs).bind (fun n => if n ≤ 2147483647 then some (n : Int) else none)

/-- `enum ConStringParameter` (shim_client_structs.h, lines 15-17); `HOST` has the value 0. -/
inductive ConStringParameter where
  | HOST
  | ARRAY
  | PORT
  | USER
  | PASSWORD
deriving Repr, DecidableEq

/-- `paramResolver[key]` (shim_client_structs.h, lines 88 and 102): `std::map::operator[]` on
the map of the five keys; for a key that is not in the map it inserts and returns a
value-initialised `ConStringParameter`, which is `HOST`. -/
def paramResolver (key : String) : ConStringParameter :=
  if key = "host" then ConStringParameter.HOST
  else if key = "port" then ConStringParameter.PORT
  else if key = "array" then ConStringParameter.ARRAY
  else if key = "user" then ConStringParameter.USER
  else if key = "password" then ConStringParameter.PASSWORD
  else ConStringParameter.HOST

/-- `struct ConnectionPars` (shim_client_structs.h, lines 69-76). -/
structure ConnectionPars where
  arrayname : String
  host : String
  port : Int
  user : String
  passwd : String
  ssl : Bool
deriving Repr, DecidableEq

/-- `ConnectionPars::ConnectionPars` (shim_client_structs.h, line 79).  The initialiser list
does not name `ssl`; `ssl0` is the indeterminate value the member is left with. -/
def ConnectionPars.new (ssl0 : Bool) : ConnectionPars :=
  { arrayname := "", host := "https://localhost", port := 8083, user := "scidb",
    passwd := "scidb", ssl := ssl0 }

/-- Body of the loop of `ConnectionPars::parseConnectionString` (shim_client_structs.h, lines
96-123) for one part of the connection string. -/
def ConnectionPars.parseConnectionString.body (out : ConnectionPars) (part : List Char) :
    Option ConnectionPars :=
  match split ['='] part with
  | [k, v] =>
    match paramResolver (String.mk k) with
    | ConStringParameter.HOST =>
      some { out with host := String.mk v, ssl := decide (v.take 5 = "https".data) }
    | ConStringParameter.PORT => (lexical_cast_int v).map (fun p => { out with port := p })
    | ConStringParameter.ARRAY => some { out with arrayname := String.mk v }
    | ConStringParameter.USER => some { out with user := String.mk v }
    | ConStringParameter.PASSWORD => some { out with passwd := String.mk v }
  | _ => some out

/-- `ConnectionPars::parseConnectionString` (shim_client_structs.h, lines 87-128); `none`
stands for the exception of `lexical_cast`. -/
def ConnectionPars.parseConnectionString (ssl0 : Bool) (connstr : String) :
    Option ConnectionPars :=
  (split [',', ';', ' '] connstr.data).foldlM ConnectionPars.parseConnectionString.body
    (ConnectionPars.new ssl0)

/-! ## `shim_client_structs.h`: selection properties -/

/-- `enum Properties` (shim_client_structs.h, lines 19-21); `SRC_WIN` has the value 0. -/
inductive Properties where
  | SRC_WIN
  | T_INDEX
deriving Repr, DecidableEq

/-- `propResolver[key]` (shim_client_structs.h, lines 30 and 41): `std::map::operator[]` on
the map of the two keys; for a key that is not in the map it inserts and returns a
value-initialised `Properties`, which is `SRC_WIN`. -/
def propResolver (key : String) : Properties :=
  if key = "src_win" then Properties.SRC_WIN
  else if key = "t" then Properties.T_INDEX
  else Properties.SRC_WIN

/-- `struct SelectProperties` (shim_client_structs.h, lines 23-25): the four elements of
`float src_coords[4]` and `temp_index`.  `F` stands for the values of `float`. -/
structure SelectProperties (F : Type) where
  src_coords : List F
  temp_index : Int
deriving Repr, DecidableEq

/-- How a run of `parsePropertiesString` ends without returning: the exception
`bad_lexical_cast`, or a write to `src_coords[index]` with `index` outside the array
(undefined behaviour). -/
inductive ParseFault where
  | bad_lexical_cast
  | out_of_bounds (index : Nat)
deriving Repr, DecidableEq

/-- `new SelectProperties ()` (shim_client_structs.h, line 28): the struct has no user-provided
constructor, so the object is zero-initialised (`zero` is the `float` 0) and `temp_index`
then gets its default member initialiser `-1`. -/
def SelectProperties.new {F : Type} (zero : F) : SelectProperties F :=
  { src_coords := [zero, zero, zero, zero], temp_index := -1 }

/-- The loop `for (int i = 0; i < c.size (); i++) properties->src_coords[i] =
boost::lexical_cast<float> (c[i]);` (shim_client_structs.h, lines 45-47) from index `i` on,
over the remaining fields.  `lexical_cast_float` is `boost::lexical_cast<float>` (`none`:
`bad_lexical_cast`).  The loop has no bound other than the number of fields. -/
def SelectProperties.parsePropertiesString.coords {F : Type}
    (lexical_cast_float : List Char → Option F) :
    List (List Char) → Nat → List F → Except ParseFault (List F)
  | [], _, src_coords => Except.ok src_coords
  | field :: rest, i, src_coords =>
    match lexical_cast_float field with
    | none => Except.error ParseFault.bad_lexical_cast
    | some v =>
      if i < 4 then
        SelectProperties.parsePropertiesString.coords lexical_cast_float rest (i + 1)
          (src_coords.set i v)
      else Except.error (ParseFault.out_of_bounds i)

/-- Body of the outer loop of `SelectProperties::parsePropertiesString`
(shim_client_structs.h, lines 34-59) for one part of the properties string. -/
def SelectProperties.parsePropertiesString.body {F : Type}
    (lexical_cast_float : List Char → Option F) (properties : SelectProperties F)
    (part : List Char) : Except ParseFault (SelectProperties F) :=
  match split [':', '='] part with
  | [k, v] =>
    match propResolver (String.mk k) with
    | Properties.SRC_WIN =>
      match SelectProperties.parsePropertiesString.coords lexical_cast_float (split [' '] v) 0
          properties.src_coords with
      | Except.error e => Except.error e
      | Except.ok src_coords => Except.ok { properties with src_coords := src_coords }
    | Properties.T_INDEX =>
      match lexical_cast_int v with
      | none => Except.error ParseFault.bad_lexical_cast
      | some t => Except.ok { properties with temp_index := t }
  | _ => Except.ok properties

/-- The outer loop of `parsePropertiesString` over the remaining parts. -/
def SelectProperties.parsePropertiesString.parts {F : Type}
    (lexical_cast_float : List Char → Option F) :
    List (List Char) → SelectProperties F → Except ParseFault (SelectProperties F)
  | [], properties => Except.ok properties
  | part :: rest, properties =>
    match SelectProperties.parsePropertiesString.body lexical_cast_float properties part with
    | Except.error e => Except.error e
    | Except.ok p => SelectProperties.parsePropertiesString.parts lexical_cast_float rest p

/-- `SelectProperties::parsePropertiesString` (shim_client_structs.h, lines 27-62). -/
def SelectProperties.parsePropertiesString {F : Type} (zero : F)
    (lexical_cast_float : List Char → Option F) (propstr : String) :
    Except ParseFault (SelectProperties F) :=
  SelectProperties.parsePropertiesString.parts lexical_cast_float
    (split [';', ','] propstr.data) (SelectProperties.new zero)

/-! ## `scidbdriver.cpp`: connection parameters -/

/-- `struct ConnectionPars` of scidbdriver.cpp (lines 81-87). -/
structure scidbdriver.ConnectionPars where
  arrayname : String
  host : String
  port : Int
  user : String
  passwd : String
deriving Repr, DecidableEq

/-- `ConnectionPars::ConnectionPars` of scidbdriver.cpp (line 89). -/
def scidbdriver.ConnectionPars.new : scidbdriver.ConnectionPars :=
  { arrayname := "", host := "http://localhost", port := 8080, user := "scidb",
    passwd := "scidb" }

/-- Body of the loop of `ConnectionPars::parseConnectionString` of scidbdriver.cpp (lines
108-123) for one part of the connection string. -/
def scidbdriver.ConnectionPars.parseConnectionString.body (out : scidbdriver.ConnectionPars)
    (part : List Char) : Option scidbdriver.ConnectionPars :=
  match split ['='] part with
  | [k, v] =>
    if String.mk k = "host" then some { out with host := String.mk v }
    else if String.mk k = "port" then (lexical_cast_int v).map (fun p => { out with port := p })
    else if String.mk k = "array" then some { out with arrayname := String.mk v }
    else if String.mk k = "user" then some { out with user := String.mk v }
    else if String.mk k = "password" then some { out with passwd := String.mk v }
    else some out
  | _ => some out

/-- `ConnectionPars::parseConnectionString` of scidbdriver.cpp (lines 97-126).  A wrong prefix
is only reported by `Utils::error`; `connstr.substr (6, ...)` throws `std::out_of_range` for
a string shorter than six characters, and `lexical_cast` may throw (`none`). -/
def scidbdriver.ConnectionPars.parseConnectionString (connstr : String) :
    Option scidbdriver.ConnectionPars :=
  if connstr.data.length < 6 then none
  else
    (split [',', ';', ' '] (connstr.data.drop 6)).foldlM
      scidbdriver.ConnectionPars.parseConnectionString.body scidbdriver.ConnectionPars.new

/-! ## Memory and the client -/

/-- `memcpy (dest + dOff, src + sOff, n)`: the `n` bytes of `src` from `sOff` on replace the
bytes of `dest` from `dOff` on.  A copy that leaves either buffer is undefined (`none`). -/
def memcpy (dest : List Nat) (dOff : Nat) (src : List Nat) (sOff n : Nat) :
    Option (List Nat) :=
  if sOff + n ≤ src.length ∧ dOff + n ≤ dest.length then
    some (dest.take dOff ++ ((src.drop sOff).take n ++ dest.drop (dOff + n)))
  else none

/-- Memory returned by `malloc (size)`: `size` bytes of indeterminate content, the byte at
offset `k` being `garbage k`.  A request of more than `PTRDIFF_MAX` bytes (what a negative
`int` converted to `size_t` asks for) fails and returns `NULL`, a buffer without bytes. -/
def malloc (garbage : Nat → Nat) (size : Nat) : List Nat :=
  if size ≤ 9223372036854775807 then (List.range size).map garbage else []

/-- `StatusCode` of the client operations (declared in `utils.h`): `SUCCESS` or an error. -/
inductive StatusCode where
  | SUCCESS
  | ERROR (code : Nat)
deriving Repr, DecidableEq

/-- An inclusive rectangle `[xmin, xmax] x [ymin, ymax]` as passed to `getData` and
`insertData`. -/
structure Rect where
  xmin : Int
  ymin : Int
  xmax : Int
  ymax : Int
deriving Repr, DecidableEq

/-- The gateway behind `ShimClient` (its member functions are declared in shimclient.h and
defined in `shimclient.cpp`, which is not among the sources): what the server answers.
`getDataPayload nband r` is the binary payload sent for attribute `nband` and rectangle `r`;
`getArrayDesc name` is the status of the call and the metadata it leaves in its output
argument; the other fields are the status of the respective call (`insertData` may depend on
the number of earlier `insertData` calls, the chunk and the rectangle). -/
structure ShimClient where
  getDataPayload : Int → Rect → List Nat
  createArray : SciDBSpatialArray → StatusCode
  updateSRS : SciDBSpatialArray → StatusCode
  insertData : Nat → SciDBSpatialArray → List Nat → Rect → StatusCode
  removeArray : String → StatusCode
  getArrayDesc : String → StatusCode × SciDBSpatialArray

/-- The members of `SciDBDataset` the embedded code uses: the array metadata `_array` and the
raster size inherited from `GDALDataset`. -/
structure SciDBDataset where
  _array : SciDBSpatialArray
  nRasterXSize : Int
  nRasterYSize : Int
deriving Repr, DecidableEq

/-- The members of `SciDBRasterBand` the embedded code uses.  Its `_array` points to the
`_array` of the dataset `poDS`, so the embedded member functions take the dataset. -/
structure SciDBRasterBand where
  nBand : Int
  nBlockXSize : Int
  nBlockYSize : Int
deriving Repr, DecidableEq

/-- `SciDBRasterBand::SciDBRasterBand` (scidbdriver.cpp, lines 134-150); the data type
`eDataType` is not used by the embedded code and is left out.  Returns the band and the array
(whose cached axis indexes the getters may have set). -/
def SciDBRasterBand.new (U : Utils) (array : SciDBSpatialArray) (nBand : Int) :
    Option (SciDBRasterBand × SciDBSpatialArray) :=
  match (if 0 ≤ nBand then array.attrs[nBand.toNat]? else none) with
  | none => none
  | some _ =>
  match array.getXDim U with
  | none => none
  | some (xh, a1) =>
  match a1.getXDim U with
  | none => none
  | some (xl, a2) =>
  let nImgYSize := toUInt32 (1 + xh.high - xl.low)
  match a2.getYDim U with
  | none => none
  | some (yh, a3) =>
  match a3.getYDim U with
  | none => none
  | some (yl, a4) =>
  let nImgXSize := toUInt32 (1 + yh.high - yl.low)
  match a4.getXDim U with
  | none => none
  | some (xc, a5) =>
  match (if (xc.chunksize : Int) < nImgYSize then
      (a5.getXDim U).map (fun p => (toInt32 (p.1.chunksize : Int), p.2))
    else some (toInt32 nImgYSize, a5)) with
  | none => none
  | some (nBlockYSize, a6) =>
  match a6.getYDim U with
  | none => none
  | some (yc, a7) =>
  match (if (yc.chunksize : Int) < nImgXSize then
      (a7.getYDim U).map (fun p => (toInt32 (p.1.chunksize : Int), p.2))
    else some (toInt32 nImgXSize, a7)) with
  | none => none
  | some (nBlockXSize, a8) =>
  some ({ nBand := nBand, nBlockXSize := nBlockXSize, nBlockYSize := nBlockYSize }, a8)

/-- `SciDBDataset::SciDBDataset` (scidbdriver.cpp, lines 273-298): the raster size and one
band per attribute; `SetBand (i + 1, band)` numbers the band `i + 1`. -/
def SciDBDataset.new (U : Utils) (array : SciDBSpatialArray) :
    Option (SciDBDataset × List SciDBRasterBand) :=
  match array.getXDim U with
  | none => none
  | some (xh, a1) =>
  match a1.getXDim U with
  | none => none
  | some (xl, a2) =>
  let nRasterYSize := toInt32 (1 + xh.high - xl.low)
  match a2.getYDim U with
  | none => none
  | some (yh, a3) =>
  match a3.getYDim U with
  | none => none
  | some (yl, a4) =>
  let nRasterXSize := toInt32 (1 + yh.high - yl.low)
  let step := fun (i : Nat) (s : SciDBSpatialArray × List SciDBRasterBand) =>
    match SciDBRasterBand.new U s.1 (toInt32 (toUInt32 i)) with
    | none => none
    | some (band, a) => some (a, s.2 ++ [{ band with nBand := toInt32 (toUInt32 i + 1) }])
  match forLoop step a4.attrs.length 0 (a4, []) with
  | none => none
  | some (a5, bands) =>
    some ({ _array := a5, nRasterXSize := nRasterXSize, nRasterYSize := nRasterYSize }, bands)

/-! ## `scidbdriver.cpp`: `Open` -/

/-- `GDALAccess`: the access mode asked for. -/
inductive GDALAccess where
  | GA_ReadOnly
  | GA_Update
deriving Repr, DecidableEq

/-- The members of `GDALOpenInfo` that `Open` reads; `pszFilename` may be `NULL` (`none`). -/
structure GDALOpenInfo where
  pszFilename : Option String
  eAccess : GDALAccess
deriving Repr, DecidableEq

/-- `SciDBDataset::Identify` (scidbdriver.cpp, lines 637-643).  `EQUALN (s, "SCIDB:", 6)`
compares the first six characters without regard to case. -/
def SciDBDataset.Identify (poOpenInfo : GDALOpenInfo) : Bool :=
  match poOpenInfo.pszFilename with
  | none => false
  | some s => decide ((s.data.take 6).map Char.toUpper = "SCIDB:".data)

/-- `SciDBDataset::Open` (scidbdriver.cpp, lines 654-709).  The outer `none` is undefined
behaviour or an exception (a `NULL` file name converted to `std::string`, an exception of
the parser, undefined behaviour of the constructor); `some none` is the return value `NULL`.
`Utils::error` and `Utils::debug` only report a message.  The client is the one created from
the parsed connection parameters. -/
def SciDBDataset.Open (U : Utils) (client : ShimClient) (poOpenInfo : GDALOpenInfo) :
    Option (Option (SciDBDataset × List SciDBRasterBand)) :=
  match poOpenInfo.pszFilename with
  | none => none
  | some connstr =>
    if ¬ SciDBDataset.Identify poOpenInfo then some none
    else if poOpenInfo.eAccess = GDALAccess.GA_Update then some none
    else
      match scidbdriver.ConnectionPars.parseConnectionString connstr with
      | none => none
      | some pars =>
        if (client.getArrayDesc pars.arrayname).1 ≠ StatusCode.SUCCESS then some none
        else if (client.getArrayDesc pars.arrayname).2.dims.length ≠ 2 then some none
        else (SciDBDataset.new U (client.getArrayDesc pars.arrayname).2).map some

/-! ## `scidbdriver.cpp`: `CreateCopy` -/

/-- The source dataset `poSrcDS` as `CreateCopy` reads it.  `GetRasterDataType i` is the data
type (its enumeration value) of band `i` (counted from 1), `GetGeoTransform` the six
coefficients when the call returns `CE_None`, and `RasterIO i nXOff nYOff nXSize nYSize
eBufType` the bytes that reading this window of band `i` stores in the buffer (none for a
window the source rejects). -/
structure GDALDataset where
  GetRasterCount : Int
  GetRasterXSize : Int
  GetRasterYSize : Int
  GetRasterDataType : Int → Nat
  GetProjectionRef : String
  GetGeoTransform : Option (Nat → Rat)
  RasterIO : Int → Int → Int → Int → Int → Nat → List Nat

/-- The library calls of `CreateCopy` that are neither on the source nor on the client.
`GetAuthorityName wkt` and `GetAuthorityCode wkt` are the authority of the spatial reference
built from `wkt` after `AutoIdentifyEPSG` (`none`: a null pointer, or a code that
`lexical_cast<uint32_t>` rejects), `pfnProgress k v` the answer of the progress callback to
its call number `k` with value `v`, `GDALOpen` the dataset opened at the end (`none`:
`NULL`). -/
structure GDALEnv where
  GetAuthorityName : String → Option String
  GetAuthorityCode : String → Option Nat
  exportToProj4 : String → String
  pfnProgress : Nat → Int → Bool
  GDALOpen : String → Option SciDBDataset

/-- A call of a client operation, with its arguments. -/
inductive ClientCall where
  | createArray (array : SciDBSpatialArray)
  | updateSRS (array : SciDBSpatialArray)
  | insertData (array : SciDBSpatialArray) (inChunk : List Nat) (r : Rect)
  | removeArray (inArrayName : String)
deriving Repr, DecidableEq

/-- Modelled from the spec: the constructor `AffineTransform (x0, y0, a11, a22, a12, a21)` of
`affinetransform.h`, which is not among the sources; the order of its parameters is the one
under which `GetGeoTransform` returns the six coefficients `CreateCopy` was given. -/
def AffineTransform.ofCoefficients (x0 y0 a11 a22 a12 a21 : Rat) : AffineTransform :=
  { _x0 := x0, _a11 := a11, _a12 := a12, _y0 := y0, _a21 := a21, _a22 := a22 }

/-- The attribute loop of `CreateCopy` (scidbdriver.cpp, lines 359-369): attribute `i` is
named `band<i+1>`, is not nullable and has the SciDB type of band `i + 1`. -/
def SciDBDataset.CreateCopy.attrs (U : Utils) (poSrcDS : GDALDataset) (nBands : Int) :
    List SciDBAttribute :=
  (List.range nBands.toNat).map fun i =>
    { name := "band" ++ toString (i + 1),
      typeId := U.gdalTypeToSciDBTypeId (poSrcDS.GetRasterDataType (toInt32 ((i : Int) + 1))),
      nullable := false }

/-- The two dimensions of the created array (scidbdriver.cpp, lines 375-393). -/
def SciDBDataset.CreateCopy.dimx (U : Utils) (nYSize : Int) : SciDBDimension :=
  { name := U.SCIDB4GDAL_DEFAULT_XDIMNAME, low := 0, high := toInt32 (nYSize - 1),
    chunksize := (toUInt32 U.SCIDB4GDAL_DEFAULT_BLOCKSIZE_X).toNat, typeId := "int64" }

/-- See `SciDBDataset.CreateCopy.dimx`. -/
def SciDBDataset.CreateCopy.dimy (U : Utils) (nXSize : Int) : SciDBDimension :=
  { name := U.SCIDB4GDAL_DEFAULT_YDIMNAME, low := 0, high := toInt32 (nXSize - 1),
    chunksize := (toUInt32 U.SCIDB4GDAL_DEFAULT_BLOCKSIZE_Y).toNat, typeId := "int64" }

/-- The pixel size `pixelSize` (scidbdriver.cpp, lines 453-454): the sum, in `size_t`, of the
byte widths of the attributes. -/
def SciDBDataset.CreateCopy.pixelSize (U : Utils) (attrs : List SciDBAttribute) : Int :=
  attrs.foldl (fun acc a => toSizeT (acc + toSizeT (U.scidbTypeIdBytes a.typeId))) 0

/-- The number of blocks `nBlockX` or `nBlockY` (scidbdriver.cpp, lines 460-464), computed
from a raster size and a chunk size by unsigned division; a chunk size of 0 divides by
zero (`none`). -/
def SciDBDataset.CreateCopy.nBlocks (nSize : Int) (chunksize : Nat) : Option Int :=
  if toUInt32 chunksize = 0 then none
  else
    let n := toUInt32 (toUInt32 nSize / toUInt32 chunksize)
    some (if toUInt32 nSize % toUInt32 chunksize ≠ 0 then toUInt32 (n + 1) else n)

/-- The bounds of block `b` along a dimension (scidbdriver.cpp, lines 485-487 and 489-491):
`min = b * chunksize + low`, `max = min + chunksize - 1`, clipped to `high`. -/
def SciDBDataset.CreateCopy.bounds (dim : SciDBDimension) (b : Nat) : Int × Int :=
  let lo := toInt32 (toUInt32 ((b : Int) * (dim.chunksize : Int)) + dim.low)
  let hi := toInt32 (toUInt32 (lo + (dim.chunksize : Int) - 1))
  (lo, if hi > dim.high then toInt32 dim.high else hi)

/-- Body of the cell loop of `CreateCopy` (scidbdriver.cpp, lines 506-508): the value of cell
`i` of the band, `w` bytes at `i * w` of `blockBandBuf`, is copied to
`i * pixelSize + bandOffset` of the chunk. -/
def SciDBDataset.CreateCopy.cell (pixelSize bandOffset w : Int) (blockBandBuf : List Nat)
    (i : Nat) (chunk : List Nat) : Option (List Nat) :=
  memcpy chunk (toSizeT (toSizeT (toSizeT (i : Int) * pixelSize) + bandOffset)).toNat
    blockBandBuf (toSizeT (toSizeT (i : Int) * w)).toNat w.toNat

/-- The bytes `poBand->RasterIO (GF_Read, ymin, xmin, 1 + ymax - ymin, 1 + xmax - xmin, ...)`
stores in `blockBandBuf` for band `iBand + 1` (scidbdriver.cpp, lines 498-499); `a` is
`array.attrs[iBand]`. -/
def SciDBDataset.CreateCopy.bandData (U : Utils) (poSrcDS : GDALDataset) (r : Rect)
    (iBand : Nat) (a : SciDBAttribute) : List Nat :=
  poSrcDS.RasterIO (toInt32 ((iBand : Int) + 1)) r.ymin r.xmin
    (toInt32 (1 + r.ymax - r.ymin)) (toInt32 (1 + r.xmax - r.xmin))
    (U.scidbTypeIdToGDALType a.typeId)

/-- Body of the band loop of `CreateCopy` (scidbdriver.cpp, lines 495-510) on the state
`(bandInterleavedChunk, bandOffset)`: band `iBand + 1` of the source is read into a fresh
buffer and its cells are copied into the chunk. -/
def SciDBDataset.CreateCopy.band (U : Utils) (poSrcDS : GDALDataset) (garbage : Nat → Nat)
    (attrs : List SciDBAttribute) (pixelSize : Int) (r : Rect) (iBand : Nat)
    (st : List Nat × Int) : Option (List Nat × Int) :=
  match attrs[iBand]? with
  | none => none
  | some a =>
    let w := toSizeT (U.scidbTypeIdBytes a.typeId)
    let cells := toInt32 ((1 + r.xmax - r.xmin) * (1 + r.ymax - r.ymin))
    let blockBandBuf := malloc garbage (toSizeT (toSizeT cells * w)).toNat
    let data := SciDBDataset.CreateCopy.bandData U poSrcDS r iBand a
    match memcpy blockBandBuf 0 data 0 data.length with
    | none => none
    | some buf =>
      match forLoop (SciDBDataset.CreateCopy.cell pixelSize st.2 w buf) cells.toNat 0 st.1 with
      | none => none
      | some chunk => some (chunk, toSizeT (st.2 + w))

/-- The band loop of `CreateCopy`, `for (uint16_t iBand = 0; iBand < nBands; ++iBand)`
(scidbdriver.cpp, lines 472 and 494-512), from `bandOffset = 0`: the interleaved chunk.  With
more than 65535 bands the 16-bit counter wraps and the loop never ends (`none`). -/
def SciDBDataset.CreateCopy.interleave (U : Utils) (poSrcDS : GDALDataset)
    (garbage : Nat → Nat) (attrs : List SciDBAttribute) (pixelSize : Int) (nBands : Int)
    (r : Rect) (chunk : List Nat) : Option (List Nat) :=
  if nBands > 65535 then none
  else
    (forLoop (SciDBDataset.CreateCopy.band U poSrcDS garbage attrs pixelSize r)
      nBands.toNat 0 (chunk, 0)).map Prod.fst

/-- The block loops of `CreateCopy` (scidbdriver.cpp, lines 469-522) over the remaining
blocks `(bx, by)`, in the order the two nested loops visit them.  `k` counts the blocks
already copied, `calls` are the client calls made so far.  The result is the list of client
calls and whether the loops ran to their end (`false`: `CreateCopy` returns `NULL`). -/
def SciDBDataset.CreateCopy.copy (U : Utils) (env : GDALEnv) (poSrcDS : GDALDataset)
    (client : ShimClient) (garbage : Nat → Nat) (array : SciDBSpatialArray)
    (pixelSize : Int) (dimx dimy : SciDBDimension) (nBands nBlockX nBlockY : Int) :
    List (Nat × Nat) → List Nat → Nat → List ClientCall → Option (List ClientCall × Bool)
  | [], _, _, calls => some (calls, true)
  | (bx, by_) :: rest, chunk, k, calls =>
    if toUInt32 (nBlockX * nBlockY) = 0 then none
    else if env.pfnProgress k
        (toUInt32 (toUInt32 ((bx : Int) * nBlockY + (by_ : Int)) / toUInt32 (nBlockX * nBlockY)))
        = false then
      some (calls ++ [ClientCall.removeArray array.name], false)
    else
      let x := SciDBDataset.CreateCopy.bounds dimx bx
      let y := SciDBDataset.CreateCopy.bounds dimy by_
      let r : Rect := { xmin := x.1, ymin := y.1, xmax := x.2, ymax := y.2 }
      match SciDBDataset.CreateCopy.interleave U poSrcDS garbage array.attrs pixelSize nBands
          r chunk with
      | none => none
      | some chunk1 =>
        if client.insertData k array chunk1 r ≠ StatusCode.SUCCESS then
          some (calls ++ [ClientCall.insertData array chunk1 r,
            ClientCall.removeArray array.name], false)
        else
          SciDBDataset.CreateCopy.copy U env poSrcDS client garbage array pixelSize dimx dimy
            nBands nBlockX nBlockY rest chunk1 (k + 1)
            (calls ++ [ClientCall.insertData array chunk1 r])

/-- The blocks `(bx, by)` in the order of `for (bx < nBlockX) for (by < nBlockY)`. -/
def SciDBDataset.CreateCopy.blocks (nBlockX nBlockY : Int) : List (Nat × Nat) :=
  (List.range nBlockX.toNat).flatMap fun bx => (List.range nBlockY.toNat).map fun by_ => (bx, by_)

/-- The metadata `CreateCopy` passes to `createArray` (scidbdriver.cpp, lines 354-393). -/
def SciDBDataset.CreateCopy.array (U : Utils) (auth_srid0 : Nat) (t0 : AffineTransform)
    (arrayname : String) (poSrcDS : GDALDataset) : SciDBSpatialArray :=
  { SciDBSpatialArray.new auth_srid0 t0 with
    name := arrayname
    attrs := SciDBDataset.CreateCopy.attrs U poSrcDS poSrcDS.GetRasterCount
    dims := [SciDBDataset.CreateCopy.dimx U poSrcDS.GetRasterYSize,
      SciDBDataset.CreateCopy.dimy U poSrcDS.GetRasterXSize] }

/-- The spatial-reference block of `CreateCopy` (scidbdriver.cpp, lines 414-438) on the array
metadata `array`: the metadata after the block and the client calls the block makes.  The
status `updateSRS` returns is not looked at.  `none` is the undefined behaviour of a null
authority name or the exception of `lexical_cast` on the authority code, both before the
call of `updateSRS`. -/
def SciDBDataset.CreateCopy.setSRS (U : Utils) (env : GDALEnv) (poSrcDS : GDALDataset)
    (array : SciDBSpatialArray) : Option (SciDBSpatialArray × List ClientCall) :=
  let wkt := poSrcDS.GetProjectionRef
  match (if wkt ≠ "" then poSrcDS.GetGeoTransform else none) with
  | none => some (array, [])
  | some padfTransform =>
    match env.GetAuthorityName wkt, env.GetAuthorityCode wkt with
    | some auth_name, some auth_srid =>
      let array1 : SciDBSpatialArray :=
        { array with
          affineTransform := AffineTransform.ofCoefficients (padfTransform 0)
            (padfTransform 3) (padfTransform 1) (padfTransform 5) (padfTransform 2)
            (padfTransform 4)
          srtext := wkt
          auth_name := auth_name
          auth_srid := auth_srid
          proj4text := env.exportToProj4 wkt
          xdim := U.SCIDB4GDAL_DEFAULT_XDIMNAME
          ydim := U.SCIDB4GDAL_DEFAULT_YDIMNAME }
      some (array1, [ClientCall.updateSRS array1])
    | _, _ => none

/-- The data transfer of `CreateCopy` (scidbdriver.cpp, lines 453-535): the chunk buffer, the
block counts, the block loops and the final `GDALOpen`.  `array` is the metadata after the
spatial-reference block and `calls` are the client calls made so far.  The outer `none` is
undefined behaviour or a loop that does not end, the inner `none` the return value `NULL`. -/
def SciDBDataset.CreateCopy.transfer (U : Utils) (env : GDALEnv) (client : ShimClient)
    (garbage : Nat → Nat) (pszFilename : String) (poSrcDS : GDALDataset)
    (array : SciDBSpatialArray) (calls : List ClientCall) :
    Option (List ClientCall × Option SciDBDataset) :=
  let nBands := poSrcDS.GetRasterCount
  let nXSize := poSrcDS.GetRasterXSize
  let nYSize := poSrcDS.GetRasterYSize
  let dimx := SciDBDataset.CreateCopy.dimx U nYSize
  let dimy := SciDBDataset.CreateCopy.dimy U nXSize
  let pixelSize := SciDBDataset.CreateCopy.pixelSize U array.attrs
  let totalSize := toSizeT (toSizeT (pixelSize * (dimx.chunksize : Int))
    * (dimy.chunksize : Int))
  let bandInterleavedChunk := malloc garbage totalSize.toNat
  match SciDBDataset.CreateCopy.nBlocks nXSize dimx.chunksize,
      SciDBDataset.CreateCopy.nBlocks nYSize dimy.chunksize with
  | some nBlockX, some nBlockY =>
    match SciDBDataset.CreateCopy.copy U env poSrcDS client garbage array pixelSize
        dimx dimy nBands nBlockX nBlockY (SciDBDataset.CreateCopy.blocks nBlockX nBlockY)
        bandInterleavedChunk 0 calls with
    | none => none
    | some (calls1, true) => some (calls1, env.GDALOpen pszFilename)
    | some (calls1, false) => some (calls1, none)
  | _, _ => none

/-- `SciDBDataset::CreateCopy` (scidbdriver.cpp, lines 343-535) for the array name `arrayname`
parsed from `pszFilename`: the client calls it makes, in order, and the dataset it returns
(`none`: `NULL`).  The outer `none` is undefined behaviour, an exception or a loop that does
not end. -/
def SciDBDataset.CreateCopy (U : Utils) (env : GDALEnv) (client : ShimClient)
    (garbage : Nat → Nat) (auth_srid0 : Nat) (t0 : AffineTransform)
    (pszFilename arrayname : String) (poSrcDS : GDALDataset) :
    Option (List ClientCall × Option SciDBDataset) :=
  let array := SciDBDataset.CreateCopy.array U auth_srid0 t0 arrayname poSrcDS
  if client.createArray array ≠ StatusCode.SUCCESS then
    some ([ClientCall.createArray array], none)
  else
    match SciDBDataset.CreateCopy.setSRS U env poSrcDS array with
    | none => none
    | some (array2, srsCalls) =>
      SciDBDataset.CreateCopy.transfer U env client garbage pszFilename poSrcDS array2
        (ClientCall.createArray array :: srsCalls)

/-- The client calls `CreateCopy` makes before its block loops (scidbdriver.cpp, lines
343-438), in order: `createArray`, and after a successful `createArray` the calls of the
spatial-reference block.  They are made whatever the block loops do afterwards. -/
def SciDBDataset.CreateCopy.callsBeforeCopy (U : Utils) (env : GDALEnv) (client : ShimClient)
    (auth_srid0 : Nat) (t0 : AffineTransform) (arrayname : String) (poSrcDS : GDALDataset) :
    List ClientCall :=
  let array := SciDBDataset.CreateCopy.array U auth_srid0 t0 arrayname poSrcDS
  if client.createArray array ≠ StatusCode.SUCCESS then [ClientCall.createArray array]
  else
    match SciDBDataset.CreateCopy.setSRS U env poSrcDS array with
    | none => [ClientCall.createArray array]
    | some (_, srsCalls) => ClientCall.createArray array :: srsCalls

/-! ## Predicates used in the statements -/

/-- The cached axis indexes of `a` are either still unresolved (as the constructor leaves
them) or are the ones `deriveDimensionIndexes` computes from the current names and
dimensions. -/
def SciDBSpatialArray.Coherent (U : Utils) (a : SciDBSpatialArray) : Prop :=
  (a._x_idx < 0 ∧ a._y_idx < 0) ∨ a.deriveDimensionIndexes U = some a

/-- The names `deriveDimensionIndexes` matches the dimensions against: `xdim` and `ydim` when
both are set, the default names otherwise. -/
def SciDBSpatialArray.axisNames (U : Utils) (a : SciDBSpatialArray) : String × String :=
  if a.xdim ≠ "" ∧ a.ydim ≠ "" then (a.xdim, a.ydim)
  else (U.SCIDB4GDAL_DEFAULT_XDIMNAME, U.SCIDB4GDAL_DEFAULT_YDIMNAME)

/-- Byte width of an attribute, `Utils::scidbTypeIdBytes (a.typeId)`. -/
def Utils.width (U : Utils) (a : SciDBAttribute) : Nat := U.scidbTypeIdBytes a.typeId

/-- Sum of the byte widths of a list of attributes. -/
def Utils.widths (U : Utils) (attrs : List SciDBAttribute) : Nat := (attrs.map U.width).sum

/-- Number of cells of the inclusive rectangle `r`. -/
def Rect.cells (r : Rect) : Int := (1 + r.xmax - r.xmin) * (1 + r.ymax - r.ymin)

/-- The rectangle of an `insertData` call; `none` for any other call. -/
def ClientCall.rect : ClientCall → Option Rect
  | ClientCall.insertData _ _ r => some r
  | _ => none

/-- The dimensions of the array of a `createArray` call; `none` for any other call. -/
def ClientCall.created : ClientCall → Option (List SciDBDimension)
  | ClientCall.createArray a => some a.dims
  | _ => none

/-- Whether a part of the connection string `connstr` is `key=value` for the given key and
some value: the part splits at `=` into exactly two pieces, the first being `key`. -/
def givesKey (key : String) (connstr : List Char) : Bool :=
  (split [',', ';', ' '] connstr).any fun part =>
    match split ['='] part with
    | [k, _] => decide (String.mk k = key)
    | _ => false

/-- The call writes data or removes the array: `insertData` or `removeArray`. -/
def ClientCall.isTransfer : ClientCall → Bool
  | ClientCall.insertData _ _ _ => true
  | ClientCall.removeArray _ => true
  | _ => false

/-- `utils.h` for the examples: default dimension names `x` and `y`, the given default chunk
sizes, 2 bytes for `int16` and 1 byte for any other type; `GDT_Int16` (3) maps to `int16` and back,
any other GDAL type to `uint8` (`GDT_Byte`, 1). -/
def exampleUtils (blockSizeX blockSizeY : Nat) : Utils where
  SCIDB4GDAL_DEFAULT_XDIMNAME := "x"
  SCIDB4GDAL_DEFAULT_YDIMNAME := "y"
  SCIDB4GDAL_DEFAULT_BLOCKSIZE_X := blockSizeX
  SCIDB4GDAL_DEFAULT_BLOCKSIZE_Y := blockSizeY
  scidbTypeIdBytes := fun t => if t = "int16" then 2 else 1
  gdalTypeToSciDBTypeId := fun t => if t = 3 then "int16" else "uint8"
  scidbTypeIdToGDALType := fun t => if t = "int16" then 3 else 1

/-- A gateway whose payload for a rectangle has `w` bytes per cell: byte `k` of the payload is
`k + 7`; the calls that write succeed and `getArrayDesc` finds no array. -/
def exampleClient (w : Int) : ShimClient where
  getDataPayload := fun _ r =>
    (List.range ((1 + r.xmax - r.xmin) * (1 + r.ymax - r.ymin) * w).toNat).map (· + 7)
  createArray := fun _ => StatusCode.SUCCESS
  updateSRS := fun _ => StatusCode.SUCCESS
  insertData := fun _ _ _ _ => StatusCode.SUCCESS
  removeArray := fun _ => StatusCode.SUCCESS
  getArrayDesc := fun _ => (StatusCode.ERROR 404, SciDBSpatialArray.new 0 ⟨0, 0, 0, 0, 0, 0⟩)

/-- A source raster of `nBands` bands and `nXSize` x `nYSize` pixels without projection: band
1 is `GDT_Int16` (3) and every other band `GDT_Byte` (1); reading a window stores
`nXSize * nYSize` values, byte `k` of band `i` being `100 * i + k`. -/
def exampleSource (nBands nXSize nYSize : Int) : GDALDataset where
  GetRasterCount := nBands
  GetRasterXSize := nXSize
  GetRasterYSize := nYSize
  GetRasterDataType := fun i => if i = 1 then 3 else 1
  GetProjectionRef := ""
  GetGeoTransform := none
  RasterIO := fun band _ _ nXS nYS eBufType =>
    (List.range (nXS * nYS * (if eBufType = 3 then 2 else 1)).toNat).map
      (fun k => 100 * band.toNat + k)

/-- A library environment for the examples: no authority, a progress callback that never
cancels, and a final `GDALOpen` that returns `NULL`. -/
def exampleEnv : GDALEnv where
  GetAuthorityName := fun _ => none
  GetAuthorityCode := fun _ => none
  exportToProj4 := fun _ => ""
  pfnProgress := fun _ _ => true
  GDALOpen := fun _ => none

/-- The array `CreateCopy` builds for `exampleSource 2 2 2` with chunks of 2 x 2: attributes
`band1:int16` and `band2:uint8`, dimensions `x = 0:1` and `y = 0:1`. -/
def exampleCopyArray : SciDBSpatialArray :=
  { SciDBSpatialArray.new 0 ⟨0, 1, 0, 0, 0, 1⟩ with
    name := "copy"
    attrs := [⟨"band1", "int16", false⟩, ⟨"band2", "uint8", false⟩]
    dims := [⟨"x", 0, 1, 2, "int64"⟩, ⟨"y", 0, 1, 2, "int64"⟩] }

/-- The array `ndvi` of the spec's scenario: `x = 0:999` in chunks of 256 (so that
`[768, 1023]` is a block), `y = 0:999` in chunks of 512, one attribute `band1:int16`. -/
def ndviArray : SciDBSpatialArray :=
  { SciDBSpatialArray.new 0 ⟨0, 1, 0, 0, 0, 1⟩ with
    name := "ndvi"
    attrs := [⟨"band1", "int16", false⟩]
    dims := [⟨"x", 0, 999, 256, "int64"⟩, ⟨"y", 0, 999, 512, "int64"⟩] }

/-- The dataset `SciDBDataset::SciDBDataset` builds for `ndviArray` (axis indexes resolved,
raster of 1000 x 1000); its only band has blocks of 512 x 256. -/
def ndviDataset : SciDBDataset :=
  ⟨{ ndviArray with _x_idx := 0, _y_idx := 1 }, 1000, 1000⟩

/-- A gateway like `exampleClient 1` that describes the array `a` under its name. -/
def exampleServer (a : SciDBSpatialArray) : ShimClient :=
  { exampleClient 1 with
    getArrayDesc := fun name =>
      if name = a.name then (StatusCode.SUCCESS, a)
      else (StatusCode.ERROR 404, SciDBSpatialArray.new 0 ⟨0, 0, 0, 0, 0, 0⟩) }

/-- A library environment that finds the authority `EPSG:4326`, never cancels, and whose final
`GDALOpen` returns the dataset `ds`. -/
def openEnv (ds : SciDBDataset) : GDALEnv where
  GetAuthorityName := fun _ => some "EPSG"
  GetAuthorityCode := fun _ => some 4326
  exportToProj4 := fun _ => "+proj=longlat"
  pfnProgress := fun _ _ => true
  GDALOpen := fun _ => some ds

/-- A georeferenced source raster: `exampleSource 1 1 1` with a projection text and the
geotransform `(100, 10, 0, 200, 0, -10)`. -/
def geoSource : GDALDataset :=
  { exampleSource 1 1 1 with
    GetProjectionRef := "GEOGCS[WGS 84]"
    GetGeoTransform := some fun i => [100, 10, 0, 200, 0, -10].getD i 0 }

/-- The array `CreateCopy` creates for `geoSource` with chunks of 2 x 2. -/
def geoArray : SciDBSpatialArray :=
  { SciDBSpatialArray.new 0 ⟨0, 1, 0, 0, 0, 1⟩ with
    name := "copy"
    attrs := [⟨"band1", "int16", false⟩]
    dims := [⟨"x", 0, 0, 2, "int64"⟩, ⟨"y", 0, 0, 2, "int64"⟩] }

/-- The array `geoArray` with the spatial reference of `geoSource`, as `CreateCopy` passes it
to `updateSRS`. -/
def geoArraySRS : SciDBSpatialArray :=
  { geoArray with
    affineTransform := ⟨100, 10, 0, 200, 0, -10⟩
    srtext := "GEOGCS[WGS 84]"
    auth_name := "EPSG"
    auth_srid := 4326
    proj4text := "+proj=longlat"
    xdim := "x"
    ydim := "y" }

/-- A gateway like `exampleClient 1` whose `updateSRS` fails. -/
def srsFailClient : ShimClient :=
  { exampleClient 1 with updateSRS := fun _ => StatusCode.ERROR 1 }

/-- A gateway like `exampleClient 1` whose `createArray` fails. -/
def createFailClient : ShimClient :=
  { exampleClient 1 with createArray := fun _ => StatusCode.ERROR 1 }

/-- The array `CreateCopy` creates for a source without bands (`exampleSource 0 1 1`). -/
def emptyArray : SciDBSpatialArray :=
  { geoArray with attrs := [] }

/-- A one-dimensional array `line`: `x = 0:9` in chunks of 4, one attribute `band1:uint8`. -/
def lineArray : SciDBSpatialArray :=
  { SciDBSpatialArray.new 0 ⟨0, 1, 0, 0, 0, 1⟩ with
    name := "line"
    attrs := [⟨"band1", "uint8", false⟩]
    dims := [⟨"x", 0, 9, 4, "int64"⟩] }

/-- A stand-in for `boost::lexical_cast<float>` in the examples: a string of decimal digits
gives its value, any other string is rejected. -/
def exampleFloat (s : List Char) : Option Nat := digits s

/-- An array with dimensions `t` and `x` whose `xdim` names the second dimension and whose
`ydim` names no dimension. -/
def mismatchArray : SciDBSpatialArray :=
  { SciDBSpatialArray.new 0 ⟨0, 1, 0, 0, 0, 1⟩ with
    name := "series"
    attrs := [⟨"band1", "uint8", false⟩]
    dims := [⟨"t", 0, 9, 4, "int64"⟩, ⟨"x", 0, 9, 4, "int64"⟩]
    xdim := "x"
    ydim := "y" }

theorem toInt32_of_range {z : Int} (h1 : -2147483648 ≤ z) (h2 : z ≤ 2147483647) :
    toInt32 z = z := by
  unfold toInt32; omega

theorem toUInt32_of_range {z : Int} (h1 : 0 ≤ z) (h2 : z < 4294967296) : toUInt32 z = z := by
  unfold toUInt32; omega

theorem toSizeT_of_range {z : Int} (h1 : 0 ≤ z) (h2 : z < 18446744073709551616) :
    toSizeT z = z := by
  unfold toSizeT; omega

theorem intercalate_go_append (sep : String) (l : List String) (x acc : String) :
    String.intercalate.go (x ++ acc) sep l = x ++ String.intercalate.go acc sep l := by
  induction l generalizing acc with
  | nil => simp [String.intercalate.go]
  | cons c l ih =>
    simp only [String.intercalate.go]
    rw [String.append_assoc, String.append_assoc, ← String.append_assoc acc, ih]

theorem intercalate_cons_cons (sep a b : String) (l : List String) :
    String.intercalate sep (a :: b :: l) = a ++ sep ++ String.intercalate sep (b :: l) := by
  simp only [String.intercalate, String.intercalate.go]
  rw [String.append_assoc, intercalate_go_append, intercalate_go_append, String.append_assoc]

theorem foldl_tags_append_last (rest : List SciDBAttribute) (last : SciDBAttribute)
    (s : String) :
    rest.foldl (fun acc a => acc ++ a.typeId ++ ",") s ++ last.typeId
      = s ++ String.intercalate "," ((rest ++ [last]).map SciDBAttribute.typeId) := by
  induction rest generalizing s with
  | nil => simp [String.intercalate, String.intercalate.go]
  | cons a r ih =>
    simp only [List.foldl_cons, List.cons_append, List.map_cons]
    rw [ih]
    cases r with
    | nil =>
      simp only [List.nil_append, List.map_cons, List.map_nil]
      rw [intercalate_cons_cons]
      simp only [String.append_assoc]
    | cons b r =>
      simp only [List.cons_append, List.map_cons]
      rw [intercalate_cons_cons ","]
      simp only [String.append_assoc]

theorem getFormatString_loop_spec (attrs : List SciDBAttribute)
    (hlen : (attrs.length : Int) ≤ 4294967296) (last : SciDBAttribute) :
    ∀ (rest pre : List SciDBAttribute) (fuel : Nat) (s : String),
      attrs = pre ++ rest ++ [last] → rest.length < fuel →
      SciDBArray.getFormatString.loop attrs ((attrs.length : Int) - 1) fuel
        (pre.length : Int) s
        = some (rest.foldl (fun acc a => acc ++ a.typeId ++ ",") s) := by
  intro rest
  induction rest with
  | nil =>
    intro pre fuel s h hf
    cases fuel with
    | zero => simp at hf
    | succ fuel =>
      have hl : (attrs.length : Int) = pre.length + 1 := by
        rw [h]; simp
      simp [SciDBArray.getFormatString.loop, hl]
  | cons a rest ih =>
    intro pre fuel s h hf
    cases fuel with
    | zero => simp at hf
    | succ fuel =>
      have hl : (attrs.length : Int) = pre.length + (rest.length + 1) + 1 := by
        rw [h]; simp; ring
      have hlt : (pre.length : Int) < (attrs.length : Int) - 1 := by omega
      have hget : attrs[pre.length]? = some a := by
        rw [h, List.append_assoc, List.getElem?_append_right (le_refl _)]; simp
      have hnext : toUInt32 ((pre.length : Int) + 1) = ((pre ++ [a]).length : Int) := by
        rw [toUInt32_of_range (by omega) (by omega)]; simp
      have h2 : attrs = (pre ++ [a]) ++ rest ++ [last] := by
        rw [h]; simp
      simp only [SciDBArray.getFormatString.loop, hlt, if_true, Int.toNat_ofNat, hget, hnext]
      rw [ih (pre ++ [a]) fuel _ h2 (by simpa using hf)]
      simp

/-! ## Lemmas: axis resolution -/

theorem deriveDimensionIndexes_body_eq (xn yn : String) (i : Nat) (a : SciDBSpatialArray) :
    SciDBSpatialArray.deriveDimensionIndexes.body xn yn i a
      = (a.dims[i]?).map (fun d => { a with
          _x_idx := if d.name = xn then (i : Int) else a._x_idx,
          _y_idx := if d.name = yn then (i : Int) else a._y_idx }) := by
  unfold SciDBSpatialArray.deriveDimensionIndexes.body
  cases a.dims[i]? with
  | none => rfl
  | some d =>
    simp only [Option.map_some']
    split_ifs <;> rfl

theorem deriveDimensionIndexes_loop (xn yn : String) (a : SciDBSpatialArray)
    (d0 d1 : SciDBDimension) (hd : a.dims = [d0, d1]) :
    forLoop (SciDBSpatialArray.deriveDimensionIndexes.body xn yn) 2 0 a = some { a with
      _x_idx := if d1.name = xn then 1 else if d0.name = xn then 0 else a._x_idx,
      _y_idx := if d1.name = yn then 1 else if d0.name = yn then 0 else a._y_idx } := by
  simp [forLoop, deriveDimensionIndexes_body_eq, hd]

theorem deriveDimensionIndexes_eq (U : Utils) (a : SciDBSpatialArray)
    (d0 d1 : SciDBDimension) (hd : a.dims = [d0, d1]) :
    a.deriveDimensionIndexes U = some { a with
      _x_idx := if d1.name = (a.axisNames U).1 then 1 else 0,
      _y_idx := if d1.name = (a.axisNames U).2 then 1
                else if d0.name = (a.axisNames U).2 then 0 else 1 } := by
  unfold SciDBSpatialArray.deriveDimensionIndexes SciDBSpatialArray.axisNames
  by_cases hn : a.xdim ≠ "" ∧ a.ydim ≠ ""
  · simp only [hn, ne_eq, not_false_eq_true, and_self, if_true]
    rw [deriveDimensionIndexes_loop _ _ { a with _x_idx := 0, _y_idx := 1 } d0 d1 hd]
    simp
  · simp only [hn, if_false]
    rw [deriveDimensionIndexes_loop _ _ { a with _x_idx := 0, _y_idx := 1 } d0 d1 hd]
    simp

theorem deriveDimensionIndexes_idx_nonneg (U : Utils) (a a1 : SciDBSpatialArray)
    (d0 d1 : SciDBDimension) (hd : a.dims = [d0, d1])
    (h : a.deriveDimensionIndexes U = some a1) :
    a1.toSciDBArray = a.toSciDBArray ∧ a1.toSciDBSpatialReference = a.toSciDBSpatialReference ∧
      (a1._x_idx = 0 ∨ a1._x_idx = 1) ∧ (a1._y_idx = 0 ∨ a1._y_idx = 1) := by
  rw [deriveDimensionIndexes_eq U a d0 d1 hd] at h
  injection h with h
  subst h
  refine ⟨rfl, rfl, ?_, ?_⟩
  · dsimp only; split_ifs <;> simp
  · dsimp only; split_ifs <;> simp

theorem getDimIdx_of_coherent (U : Utils) (a : SciDBSpatialArray) (d0 d1 : SciDBDimension)
    (hd : a.dims = [d0, d1]) (hc : a.Coherent U) :
    ∃ a1, a.deriveDimensionIndexes U = some a1 ∧
      a.getXDimIdx U = some (a1._x_idx, a1) ∧ a.getYDimIdx U = some (a1._y_idx, a1) := by
  obtain ⟨a1, h1⟩ : ∃ a1, a.deriveDimensionIndexes U = some a1 :=
    ⟨_, deriveDimensionIndexes_eq U a d0 d1 hd⟩
  obtain ⟨-, -, hx, hy⟩ := deriveDimensionIndexes_idx_nonneg U a a1 d0 d1 hd h1
  refine ⟨a1, h1, ?_, ?_⟩
  · rcases hc with ⟨hx0, -⟩ | hc
    · simp [SciDBSpatialArray.getXDimIdx, hx0, h1]
    · have : a1 = a := by rw [h1] at hc; injection hc
      subst this
      have : ¬ a1._x_idx < 0 := by omega
      simp [SciDBSpatialArray.getXDimIdx, this]
  · rcases hc with ⟨-, hy0⟩ | hc
    · simp [SciDBSpatialArray.getYDimIdx, hy0, h1]
    · have : a1 = a := by rw [h1] at hc; injection hc
      subst this
      have : ¬ a1._y_idx < 0 := by omega
      simp [SciDBSpatialArray.getYDimIdx, this]

theorem deriveDimensionIndexes_fixed (U : Utils) (a b : SciDBSpatialArray)
    (d0 d1 : SciDBDimension) (hd : a.dims = [d0, d1])
    (h : a.deriveDimensionIndexes U = some b) :
    b.deriveDimensionIndexes U = some b ∧ 0 ≤ b._x_idx ∧ 0 ≤ b._y_idx := by
  rw [deriveDimensionIndexes_eq U a d0 d1 hd] at h
  injection h with h
  subst h
  refine ⟨?_, ?_, ?_⟩
  · refine (deriveDimensionIndexes_eq U _ d0 d1 ?_).trans ?_
    · exact hd
    · rfl
  · dsimp only; split_ifs <;> decide
  · dsimp only; split_ifs <;> decide

/-! ## Lemmas: memory and loops -/

theorem memcpy_spec (dest src : List Nat) (dOff sOff n : Nat)
    (h1 : sOff + n ≤ src.length) (h2 : dOff + n ≤ dest.length) :
    ∃ out, memcpy dest dOff src sOff n = some out ∧ out.length = dest.length ∧
      (∀ k, dOff ≤ k → k < dOff + n → out[k]? = src[sOff + (k - dOff)]?) ∧
      (∀ k, (k < dOff ∨ dOff + n ≤ k) → out[k]? = dest[k]?) := by
  refine ⟨dest.take dOff ++ ((src.drop sOff).take n ++ dest.drop (dOff + n)),
    by simp [memcpy, h1, h2], ?_, ?_, ?_⟩
  · simp only [List.length_append, List.length_take, List.length_drop]
    omega
  · intro k hk1 hk2
    rw [List.getElem?_append_right (by simp only [List.length_take]; omega)]
    rw [List.getElem?_append_left (by
      simp only [List.length_take, List.length_drop]; omega)]
    rw [List.getElem?_take_of_lt (by simp only [List.length_take]; omega), List.getElem?_drop]
    congr 1
    simp only [List.length_take]; omega
  · intro k hk
    rcases hk with hk | hk
    · rw [List.getElem?_append_left (by simp only [List.length_take]; omega)]
      rw [List.getElem?_take_of_lt hk]
    · rw [List.getElem?_append_right (by simp only [List.length_take]; omega)]
      rw [List.getElem?_append_right (by
        simp only [List.length_take, List.length_drop]; omega)]
      rw [List.getElem?_drop]
      congr 1
      simp only [List.length_take, List.length_drop]; omega

theorem forLoop_congr {σ : Type} (f g : Nat → σ → Option σ) :
    ∀ (n start : Nat) (s : σ), (∀ i t, start ≤ i → i < start + n → f i t = g i t) →
      forLoop f n start s = forLoop g n start s := by
  intro n
  induction n with
  | zero => intro start s _; rfl
  | succ n ih =>
    intro start s h
    simp only [forLoop]
    rw [h start s (le_refl _) (by omega)]
    cases g start s with
    | none => rfl
    | some t =>
      simp only [Option.bind]
      exact ih (start + 1) t (fun i t hi1 hi2 => h i t (by omega) (by omega))

theorem memcpy_full (dest src : List Nat) (h : dest.length = src.length) :
    memcpy dest 0 src 0 src.length = some src := by
  unfold memcpy
  rw [if_pos ⟨by omega, by omega⟩]
  simp only [List.take_zero, List.drop_zero, List.nil_append, Nat.zero_add]
  rw [List.take_of_length_le (le_refl _), List.drop_eq_nil_of_le (by omega), List.append_nil]

theorem copyCells_spec (P w off : Nat) (hw : off + w ≤ P) (buf : List Nat) :
    ∀ (n start : Nat) (chunk : List Nat),
      (start + n) * w ≤ buf.length →
      (start + n) * P ≤ chunk.length →
      ∃ out, forLoop (fun i c => memcpy c (i * P + off) buf (i * w) w) n start chunk = some out ∧
        out.length = chunk.length ∧
        (∀ i b, start ≤ i → i < start + n → b < w → out[i * P + off + b]? = buf[i * w + b]?) ∧
        (∀ k, (∀ i, start ≤ i → i < start + n → ¬ (i * P + off ≤ k ∧ k < i * P + off + w)) →
          out[k]? = chunk[k]?) := by
  intro n
  induction n with
  | zero =>
    intro start chunk _ _
    exact ⟨chunk, rfl, rfl, fun i b h1 h2 => by omega, fun k _ => rfl⟩
  | succ n ih =>
    intro start chunk hbuf hchunk
    have e1 : (start + (n + 1)) * w = start * w + w + n * w := by ring
    have e2 : (start + (n + 1)) * P = start * P + P + n * P := by ring
    obtain ⟨c1, hm, hlen1, hin1, hout1⟩ := memcpy_spec chunk buf (start * P + off) (start * w) w
      (by omega) (by omega)
    have e3 : (start + 1 + n) * w = start * w + w + n * w := by ring
    have e4 : (start + 1 + n) * P = start * P + P + n * P := by ring
    obtain ⟨out, ho, hlen, hin, hout⟩ := ih (start + 1) c1 (by omega) (by omega)
    refine ⟨out, ?_, by omega, ?_, ?_⟩
    · simp only [forLoop, hm, Option.bind]
      exact ho
    · intro i b hi1 hi2 hb
      by_cases hi : i = start
      · subst hi
        rw [hout, hin1 _ (by omega) (by omega)]
        · congr 1; omega
        · intro i' h1 h2 h3
          have : (i + 1) * P ≤ i' * P := Nat.mul_le_mul_right P h1
          have e5 : (i + 1) * P = i * P + P := by ring
          omega
      · exact hin i b (by omega) (by omega) hb
    · intro k hk
      rw [hout k (fun i h1 h2 => hk i (by omega) (by omega))]
      apply hout1
      have := hk start (le_refl _) (by omega)
      omega

theorem widths_take_succ (U : Utils) (attrs : List SciDBAttribute) (j : Nat)
    (a : SciDBAttribute) (h : attrs[j]? = some a) :
    U.widths (attrs.take (j + 1)) = U.widths (attrs.take j) + U.width a ∧
    U.widths (attrs.take (j + 1)) ≤ U.widths attrs := by
  induction attrs generalizing j with
  | nil => simp at h
  | cons x xs ih =>
    cases j with
    | zero =>
      simp only [List.getElem?_cons_zero, Option.some.injEq] at h
      subst h
      simp [Utils.widths]
    | succ j =>
      simp only [List.getElem?_cons_succ] at h
      obtain ⟨h1, h2⟩ := ih j h
      simp only [Utils.widths, List.take_succ_cons, List.map_cons, List.sum_cons] at *
      constructor <;> omega

theorem widths_take_mono (U : Utils) (attrs : List SciDBAttribute) (j l : Nat) (h : j ≤ l) :
    U.widths (attrs.take j) ≤ U.widths (attrs.take l) := by
  induction attrs generalizing j l with
  | nil => simp [Utils.widths]
  | cons x xs ih =>
    cases j with
    | zero => simp [Utils.widths]
    | succ j =>
      cases l with
      | zero => omega
      | succ l =>
        have := ih j l (by omega)
        simp only [Utils.widths, List.take_succ_cons, List.map_cons, List.sum_cons] at *
        omega

theorem toSizeT_natCast (k : Nat) (h : k < 18446744073709551616) :
    toSizeT (k : Int) = (k : Int) :=
  toSizeT_of_range (Int.natCast_nonneg k) (by exact_mod_cast h)

theorem CreateCopy_pixelSize_eq (U : Utils) (attrs : List SciDBAttribute) :
    ∀ acc : Nat, acc + U.widths attrs < 18446744073709551616 →
      attrs.foldl (fun acc a => toSizeT (acc + toSizeT (U.scidbTypeIdBytes a.typeId)))
        (acc : Int) = ((acc + U.widths attrs : Nat) : Int) := by
  induction attrs with
  | nil => intro acc _; simp [Utils.widths]
  | cons a as ih =>
    intro acc h
    have hw : U.widths (a :: as) = U.width a + U.widths as := by
      simp [Utils.widths]
    rw [hw] at h
    have h1 : U.scidbTypeIdBytes a.typeId < 18446744073709551616 := by
      unfold Utils.width at h; omega
    have h2 : acc + U.scidbTypeIdBytes a.typeId < 18446744073709551616 := by
      unfold Utils.width at h; omega
    have e : (acc : Int) + ((U.scidbTypeIdBytes a.typeId : Nat) : Int)
        = ((acc + U.scidbTypeIdBytes a.typeId : Nat) : Int) := by push_cast; rfl
    have h3 := ih (acc + U.scidbTypeIdBytes a.typeId) (by unfold Utils.width at h; omega)
    simp only [List.foldl_cons]
    rw [toSizeT_natCast _ h1, e, toSizeT_natCast _ h2, h3, hw]
    unfold Utils.width
    congr 1
    omega

theorem CreateCopy_cell_eq (P off w i : Nat) (buf chunk : List Nat)
    (hi : i < 18446744073709551616)
    (h1 : i * P + off < 18446744073709551616) (h2 : i * w < 18446744073709551616) :
    SciDBDataset.CreateCopy.cell (P : Int) (off : Int) (w : Int) buf i chunk
      = memcpy chunk (i * P + off) buf (i * w) w := by
  have hP : i * P < 18446744073709551616 := lt_of_le_of_lt (Nat.le_add_right _ _) h1
  have c1 : (i : Int) * (P : Int) = ((i * P : Nat) : Int) := by push_cast; rfl
  have c2 : ((i * P : Nat) : Int) + (off : Int) = ((i * P + off : Nat) : Int) := by
    push_cast; rfl
  have c3 : (i : Int) * (w : Int) = ((i * w : Nat) : Int) := by push_cast; rfl
  unfold SciDBDataset.CreateCopy.cell
  rw [toSizeT_natCast _ hi, c1, toSizeT_natCast _ hP, c2, toSizeT_natCast _ h1, c3,
    toSizeT_natCast _ h2]
  rfl

theorem CreateCopy_band_eq (U : Utils) (poSrcDS : GDALDataset) (garbage : Nat → Nat)
    (attrs : List SciDBAttribute) (P : Nat) (r : Rect) (j : Nat) (chunk : List Nat)
    (off n : Nat) (a : SciDBAttribute) (ha : attrs[j]? = some a)
    (hcells : (1 + r.xmax - r.xmin) * (1 + r.ymax - r.ymin) = (n : Int))
    (hn31 : n ≤ 2147483647)
    (hmalloc : n * U.width a ≤ 9223372036854775807)
    (hw64 : U.width a < 18446744073709551616)
    (hdata : (SciDBDataset.CreateCopy.bandData U poSrcDS r j a).length = n * U.width a)
    (hoff : ∀ i, i < n → i * P + off < 18446744073709551616)
    (hnext : off + U.width a < 18446744073709551616) :
    SciDBDataset.CreateCopy.band U poSrcDS garbage attrs (P : Int) r j (chunk, (off : Int))
      = (forLoop (fun i c => memcpy c (i * P + off)
          (SciDBDataset.CreateCopy.bandData U poSrcDS r j a) (i * U.width a) (U.width a))
          n 0 chunk).map (fun c => (c, ((off + U.width a : Nat) : Int))) := by
  have hn64 : n < 18446744073709551616 := by omega
  have hnw64 : n * U.width a < 18446744073709551616 := by omega
  have hiw : ∀ i, i < n → i * U.width a < 18446744073709551616 := fun i hi =>
    lt_of_le_of_lt (Nat.mul_le_mul_right _ (le_of_lt hi)) hnw64
  have hi64 : ∀ i, i < n → i < 18446744073709551616 := fun i hi => by omega
  have e1 : toInt32 (n : Int) = (n : Int) :=
    toInt32_of_range (by linarith [Int.natCast_nonneg n]) (by exact_mod_cast hn31)
  have c1 : (n : Int) * ((U.width a : Nat) : Int) = ((n * U.width a : Nat) : Int) := by
    push_cast; rfl
  have c2 : (off : Int) + ((U.width a : Nat) : Int) = ((off + U.width a : Nat) : Int) := by
    push_cast; rfl
  have hloop := forLoop_congr
    (SciDBDataset.CreateCopy.cell (P : Int) (off : Int) ((U.width a : Nat) : Int)
      (SciDBDataset.CreateCopy.bandData U poSrcDS r j a))
    (fun i c => memcpy c (i * P + off)
      (SciDBDataset.CreateCopy.bandData U poSrcDS r j a) (i * U.width a) (U.width a))
    n 0 chunk
    (fun i t _ hi =>
      have hi' : i < n := by rw [Nat.zero_add] at hi; exact hi
      CreateCopy_cell_eq P off (U.width a) i _ t (hi64 i hi') (hoff i hi') (hiw i hi'))
  have hget : memcpy (malloc garbage (n * U.width a)) 0
      (SciDBDataset.CreateCopy.bandData U poSrcDS r j a) 0
      (SciDBDataset.CreateCopy.bandData U poSrcDS r j a).length
      = some (SciDBDataset.CreateCopy.bandData U poSrcDS r j a) := by
    apply memcpy_full
    rw [hdata]
    simp [malloc, hmalloc]
  unfold SciDBDataset.CreateCopy.band
  simp only [ha]
  rw [hcells, e1]
  change (match memcpy (malloc garbage (toSizeT (toSizeT (n : Int)
      * toSizeT ((U.width a : Nat) : Int))).toNat) 0
      (SciDBDataset.CreateCopy.bandData U poSrcDS r j a) 0
      (SciDBDataset.CreateCopy.bandData U poSrcDS r j a).length with
    | none => none
    | some buf =>
      match forLoop (SciDBDataset.CreateCopy.cell (P : Int) (off : Int)
          (toSizeT ((U.width a : Nat) : Int)) buf) (n : Int).toNat 0 chunk with
      | none => none
      | some chunk => some (chunk, toSizeT ((off : Int) + toSizeT ((U.width a : Nat) : Int))))
    = _
  rw [toSizeT_natCast _ hw64, toSizeT_natCast _ hn64, c1, toSizeT_natCast _ hnw64, c2,
    toSizeT_natCast _ hnext, Int.toNat_ofNat, Int.toNat_ofNat, hget]
  simp only [hloop]
  cases forLoop (fun i c => memcpy c (i * P + off)
      (SciDBDataset.CreateCopy.bandData U poSrcDS r j a) (i * U.width a) (U.width a))
      n 0 chunk <;> rfl

theorem CreateCopy_bands_spec (U : Utils) (poSrcDS : GDALDataset) (garbage : Nat → Nat)
    (attrs : List SciDBAttribute) (r : Rect) (n L : Nat)
    (hcells : (1 + r.xmax - r.xmin) * (1 + r.ymax - r.ymin) = (n : Int))
    (hn31 : n ≤ 2147483647)
    (hrec : U.widths attrs ≤ L) (hfit : n * U.widths attrs ≤ L)
    (hmax : L ≤ 9223372036854775807)
    (hio : ∀ j a, attrs[j]? = some a →
      (SciDBDataset.CreateCopy.bandData U poSrcDS r j a).length = n * U.width a) :
    ∀ (m j0 : Nat) (chunk0 : List Nat), j0 + m = attrs.length → chunk0.length = L →
      ∃ out, forLoop (SciDBDataset.CreateCopy.band U poSrcDS garbage attrs
            ((U.widths attrs : Nat) : Int) r) m j0
            (chunk0, ((U.widths (attrs.take j0) : Nat) : Int))
          = some (out, ((U.widths (attrs.take (j0 + m)) : Nat) : Int)) ∧
        out.length = L ∧
        (∀ i j a b, i < n → j0 ≤ j → attrs[j]? = some a → b < U.width a →
          out[i * U.widths attrs + U.widths (attrs.take j) + b]?
            = (SciDBDataset.CreateCopy.bandData U poSrcDS r j a)[i * U.width a + b]?) ∧
        (∀ k, (∀ i j a, i < n → j0 ≤ j → attrs[j]? = some a →
            ¬ (i * U.widths attrs + U.widths (attrs.take j) ≤ k ∧
               k < i * U.widths attrs + U.widths (attrs.take j) + U.width a)) →
          out[k]? = chunk0[k]?) := by
  intro m
  induction m with
  | zero =>
    intro j0 chunk0 hj hlen
    refine ⟨chunk0, rfl, hlen, ?_, fun k _ => rfl⟩
    intro i j a b _ hj0 ha _
    have : j < attrs.length := by
      rcases List.getElem?_eq_some.mp ha with ⟨h, -⟩
      exact h
    omega
  | succ m ih =>
    intro j0 chunk0 hj hlen
    have hj0 : j0 < attrs.length := by omega
    have ha : attrs[j0]? = some attrs[j0] := List.getElem?_eq_getElem hj0
    obtain ⟨hsucc, hle⟩ := widths_take_succ U attrs j0 _ ha
    have hnw : n * U.width attrs[j0] ≤ n * U.widths attrs :=
      Nat.mul_le_mul_left _ (by omega)
    have hoff : ∀ i, i < n →
        i * U.widths attrs + U.widths (attrs.take j0) < 18446744073709551616 := by
      intro i hi
      have h1 : (i + 1) * U.widths attrs ≤ n * U.widths attrs := Nat.mul_le_mul_right _ hi
      have e : (i + 1) * U.widths attrs = i * U.widths attrs + U.widths attrs := by ring
      omega
    have hstep := CreateCopy_band_eq U poSrcDS garbage attrs (U.widths attrs) r j0 chunk0
      (U.widths (attrs.take j0)) n attrs[j0] ha hcells hn31 (by omega) (by omega)
      (hio j0 _ ha) hoff (by omega)
    obtain ⟨c1, hc1, hlen1, hin1, hout1⟩ := copyCells_spec (U.widths attrs)
      (U.width attrs[j0]) (U.widths (attrs.take j0)) (by omega)
      (SciDBDataset.CreateCopy.bandData U poSrcDS r j0 attrs[j0]) n 0 chunk0
      (by rw [Nat.zero_add, hio j0 _ ha]) (by rw [Nat.zero_add]; omega)
    rw [Nat.zero_add] at hin1 hout1
    obtain ⟨out, ho, hlen2, hin2, hout2⟩ := ih (j0 + 1) c1 (by omega) (by omega)
    have e : j0 + 1 + m = j0 + (m + 1) := by omega
    rw [e] at ho
    refine ⟨out, ?_, hlen2, ?_, ?_⟩
    · simp only [forLoop, hstep, hc1, Option.map_some', Option.bind]
      rw [← hsucc, ho]
    · intro i j a b hi hjj haj hb
      by_cases hjeq : j = j0
      · subst hjeq
        have haeq : a = attrs[j] := by
          rw [ha] at haj; exact (Option.some.inj haj).symm
        subst haeq
        rw [hout2, hin1 i b (Nat.zero_le _) hi hb]
        intro i' j' a' hi' hj' ha' hcon
        obtain ⟨hs', hl'⟩ := widths_take_succ U attrs j' a' ha'
        have hmono := widths_take_mono U attrs (j + 1) j' hj'
        rcases Nat.lt_trichotomy i' i with h | h | h
        · have h1 : (i' + 1) * U.widths attrs ≤ i * U.widths attrs := Nat.mul_le_mul_right _ h
          have e : (i' + 1) * U.widths attrs = i' * U.widths attrs + U.widths attrs := by ring
          omega
        · subst h; omega
        · have h1 : (i + 1) * U.widths attrs ≤ i' * U.widths attrs := Nat.mul_le_mul_right _ h
          have e : (i + 1) * U.widths attrs = i * U.widths attrs + U.widths attrs := by ring
          omega
      · exact hin2 i j a b hi (by omega) haj hb
    · intro k hk
      rw [hout2 k (fun i j a hi hjj haj => hk i j a hi (by omega) haj)]
      apply hout1
      intro i _ hi
      exact hk i j0 _ hi (le_refl _) ha

theorem CreateCopy_interleave_spec (U : Utils) (poSrcDS : GDALDataset) (garbage : Nat → Nat)
    (attrs : List SciDBAttribute) (nBands : Int) (r : Rect) (chunk : List Nat) (n : Nat)
    (hbands : nBands = (attrs.length : Int)) (h16 : attrs.length ≤ 65535)
    (hcells : (1 + r.xmax - r.xmin) * (1 + r.ymax - r.ymin) = (n : Int))
    (hn31 : n ≤ 2147483647)
    (hrec : U.widths attrs ≤ chunk.length) (hfit : n * U.widths attrs ≤ chunk.length)
    (hmax : chunk.length ≤ 9223372036854775807)
    (hio : ∀ j a, attrs[j]? = some a →
      (SciDBDataset.CreateCopy.bandData U poSrcDS r j a).length = n * U.width a) :
    ∃ out, SciDBDataset.CreateCopy.interleave U poSrcDS garbage attrs
          (SciDBDataset.CreateCopy.pixelSize U attrs) nBands r chunk = some out ∧
      out.length = chunk.length ∧
      (∀ i j a b, i < n → attrs[j]? = some a → b < U.width a →
        out[i * U.widths attrs + U.widths (attrs.take j) + b]?
          = (SciDBDataset.CreateCopy.bandData U poSrcDS r j a)[i * U.width a + b]?) := by
  obtain ⟨out, ho, hlen, hin, -⟩ := CreateCopy_bands_spec U poSrcDS garbage attrs r n
    chunk.length hcells hn31 hrec hfit hmax hio attrs.length 0 chunk (Nat.zero_add _) rfl
  have hP : SciDBDataset.CreateCopy.pixelSize U attrs = ((U.widths attrs : Nat) : Int) := by
    have h := CreateCopy_pixelSize_eq U attrs 0 (by omega)
    rw [Nat.zero_add] at h
    exact h
  have h0 : ((U.widths (attrs.take 0) : Nat) : Int) = 0 := by
    simp [Utils.widths]
  have hgt : ¬ nBands > 65535 := by
    rw [hbands]
    have : (attrs.length : Int) ≤ 65535 := by exact_mod_cast h16
    exact not_lt.mpr this
  refine ⟨out, ?_, hlen, fun i j a b hi ha hb => hin i j a b hi (Nat.zero_le _) ha hb⟩
  unfold SciDBDataset.CreateCopy.interleave
  rw [if_neg hgt, hP, hbands, Int.toNat_ofNat]
  rw [h0] at ho
  rw [ho]
  rfl

/-- For every chunk size `c` from 1 to 1073741823 and a source raster of `c + 1` x 1 pixels,
`CreateCopy` counts two blocks along `x` (from `nXSize`), although the `x` dimension of the
created array is `0:0` (from `nYSize`), and the second block has the bounds `[c, 0]`. -/
theorem CreateCopy_block_count_swapped (U : Utils) (c : Nat) (h1 : 1 ≤ c)
    (h2 : c ≤ 1073741823) (hU : U.SCIDB4GDAL_DEFAULT_BLOCKSIZE_X = c) :
    SciDBDataset.CreateCopy.nBlocks ((c : Int) + 1) (SciDBDataset.CreateCopy.dimx U 1).chunksize
      = some 2 ∧
    (SciDBDataset.CreateCopy.dimx U 1).high = 0 ∧
    SciDBDataset.CreateCopy.bounds (SciDBDataset.CreateCopy.dimx U 1) 1 = ((c : Int), 0) := by
  have hc : toUInt32 (c : Int) = (c : Int) :=
    toUInt32_of_range (Int.natCast_nonneg c) (by omega)
  have hchunk : (SciDBDataset.CreateCopy.dimx U 1).chunksize = c := by
    simp only [SciDBDataset.CreateCopy.dimx, hU, hc, Int.toNat_ofNat]
  have hhigh : (SciDBDataset.CreateCopy.dimx U 1).high = 0 := by
    simp only [SciDBDataset.CreateCopy.dimx]; decide
  have hlow : (SciDBDataset.CreateCopy.dimx U 1).low = 0 := rfl
  have hc1 : toUInt32 ((c : Int) + 1) = (c : Int) + 1 :=
    toUInt32_of_range (by omega) (by omega)
  have hcpos : (0 : Int) < (c : Int) := by omega
  refine ⟨?_, hhigh, ?_⟩
  · unfold SciDBDataset.CreateCopy.nBlocks
    rw [hchunk, hc, hc1, if_neg (by omega)]
    rcases Nat.eq_or_lt_of_le h1 with h | h
    · subst h
      decide
    · have hd : ((c : Int) + 1) / (c : Int) = 1 := by
        rw [Int.add_ediv_of_dvd_left (dvd_refl _), Int.ediv_self (by omega),
          Int.ediv_eq_zero_of_lt (by omega) (by omega)]
        rfl
      have hm : ((c : Int) + 1) % (c : Int) = 1 := by
        rw [Int.add_emod, Int.emod_self, Int.zero_add, Int.emod_emod_of_dvd _ (dvd_refl _),
          Int.emod_eq_of_lt (by omega) (by omega)]
      rw [hd, hm]
      decide
  · unfold SciDBDataset.CreateCopy.bounds
    rw [hchunk, hhigh, hlow]
    have e1 : toUInt32 (((1 : Nat) : Int) * (c : Int)) = (c : Int) := by
      rw [show (((1 : Nat) : Int) * (c : Int)) = (c : Int) by push_cast; ring]; exact hc
    have e2 : toInt32 ((c : Int) + 0) = (c : Int) :=
      toInt32_of_range (by omega) (by omega)
    have e3 : toUInt32 ((c : Int) + (c : Int) - 1) = (c : Int) + (c : Int) - 1 :=
      toUInt32_of_range (by omega) (by omega)
    have e4 : toInt32 ((c : Int) + (c : Int) - 1) = (c : Int) + (c : Int) - 1 :=
      toInt32_of_range (by omega) (by omega)
    have e5 : (c : Int) + (c : Int) - 1 > 0 := by omega
    simp only [e1, e2, e3, e4, e5, if_true]
    rfl

theorem CreateCopy_copy_calls (U : Utils) (env : GDALEnv) (poSrcDS : GDALDataset)
    (client : ShimClient) (garbage : Nat → Nat) (array : SciDBSpatialArray)
    (pixelSize : Int) (dimx dimy : SciDBDimension) (nBands nBlockX nBlockY : Int) :
    ∀ (blocks : List (Nat × Nat)) (chunk : List Nat) (k : Nat) (calls : List ClientCall)
      (res : List ClientCall × Bool),
      SciDBDataset.CreateCopy.copy U env poSrcDS client garbage array pixelSize dimx dimy
        nBands nBlockX nBlockY blocks chunk k calls = some res →
      ∃ tail, res.1 = calls ++ tail ∧ ∀ c ∈ tail, c.isTransfer = true := by
  intro blocks
  induction blocks with
  | nil =>
    intro chunk k calls res h
    simp only [SciDBDataset.CreateCopy.copy, Option.some.injEq] at h
    subst h
    exact ⟨[], by simp, by simp⟩
  | cons b rest ih =>
    intro chunk k calls res h
    obtain ⟨bx, by_⟩ := b
    rw [SciDBDataset.CreateCopy.copy] at h
    split_ifs at h with h1 h2
    · simp only [Option.some.injEq] at h
      subst h
      exact ⟨[ClientCall.removeArray array.name], rfl, by simp [ClientCall.isTransfer]⟩
    · simp only [] at h
      split at h
      · cases h
      · rename_i chunk1 hch
        split_ifs at h with h3
        · simp only [Option.some.injEq] at h
          subst h
          exact ⟨_, rfl, by simp [ClientCall.isTransfer]⟩
        · obtain ⟨tail, ht, hall⟩ := ih _ _ _ _ h
          refine ⟨[ClientCall.insertData array chunk1 _] ++ tail,
            by rw [ht, List.append_assoc], ?_⟩
          intro c hc
          rcases List.mem_append.1 hc with hc | hc
          · rw [List.mem_singleton.1 hc]; rfl
          · exact hall c hc

theorem CreateCopy_setSRS_skip (U : Utils) (env : GDALEnv) (poSrcDS : GDALDataset)
    (array : SciDBSpatialArray)
    (h : poSrcDS.GetProjectionRef = "" ∨ poSrcDS.GetGeoTransform = none) :
    SciDBDataset.CreateCopy.setSRS U env poSrcDS array = some (array, []) := by
  unfold SciDBDataset.CreateCopy.setSRS
  simp only []
  by_cases hw : poSrcDS.GetProjectionRef = ""
  · rw [if_neg (not_not.2 hw)]
  · rw [if_pos hw]
    rcases h with h | h
    · exact absurd h hw
    · rw [h]

theorem CreateCopy_setSRS_sent (U : Utils) (env : GDALEnv) (poSrcDS : GDALDataset)
    (array : SciDBSpatialArray) (p : Nat → Rat) (n : String) (c : Nat)
    (hw : poSrcDS.GetProjectionRef ≠ "") (hg : poSrcDS.GetGeoTransform = some p)
    (hn : env.GetAuthorityName poSrcDS.GetProjectionRef = some n)
    (hc : env.GetAuthorityCode poSrcDS.GetProjectionRef = some c) :
    ∃ a1, SciDBDataset.CreateCopy.setSRS U env poSrcDS array
        = some (a1, [ClientCall.updateSRS a1]) ∧
      a1.srtext = poSrcDS.GetProjectionRef ∧
      a1.affineTransform = AffineTransform.ofCoefficients (p 0) (p 3) (p 1) (p 5) (p 2) (p 4) ∧
      a1.xdim = U.SCIDB4GDAL_DEFAULT_XDIMNAME ∧ a1.ydim = U.SCIDB4GDAL_DEFAULT_YDIMNAME ∧
      a1.auth_name = n ∧ a1.auth_srid = c ∧ a1.toSciDBArray = array.toSciDBArray := by
  unfold SciDBDataset.CreateCopy.setSRS
  simp only []
  rw [if_pos hw, hg]
  simp only [hn, hc]
  exact ⟨_, rfl, rfl, rfl, rfl, rfl, rfl, rfl, rfl⟩

theorem CreateCopy_setSRS_undefined (U : Utils) (env : GDALEnv) (poSrcDS : GDALDataset)
    (array : SciDBSpatialArray)
    (hw : poSrcDS.GetProjectionRef ≠ "") (hg : poSrcDS.GetGeoTransform.isSome = true)
    (hn : env.GetAuthorityName poSrcDS.GetProjectionRef = none ∨
      env.GetAuthorityCode poSrcDS.GetProjectionRef = none) :
    SciDBDataset.CreateCopy.setSRS U env poSrcDS array = none := by
  unfold SciDBDataset.CreateCopy.setSRS
  simp only []
  rw [if_pos hw]
  cases hp : poSrcDS.GetGeoTransform with
  | none => rw [hp] at hg; cases hg
  | some p =>
    simp only []
    rcases hn with hn | hn
    · rw [hn]
    · rw [hn]
      cases env.GetAuthorityName poSrcDS.GetProjectionRef <;> rfl

theorem CreateCopy_transfer_calls (U : Utils) (env : GDALEnv) (client : ShimClient)
    (garbage : Nat → Nat) (pszFilename : String) (poSrcDS : GDALDataset)
    (array : SciDBSpatialArray) (calls : List ClientCall)
    (res : List ClientCall × Option SciDBDataset)
    (h : SciDBDataset.CreateCopy.transfer U env client garbage pszFilename poSrcDS array calls
      = some res) :
    ∃ tail, res.1 = calls ++ tail ∧ ∀ c ∈ tail, c.isTransfer = true := by
  unfold SciDBDataset.CreateCopy.transfer at h
  simp only [] at h
  split at h
  · rename_i nBlockX nBlockY hbx hby
    split at h
    · cases h
    · rename_i calls1 hcopy
      obtain ⟨tail, ht, hall⟩ :=
        CreateCopy_copy_calls _ _ _ _ _ _ _ _ _ _ _ _ _ _ _ _ _ hcopy
      simp only [Option.some.injEq] at h
      subst h
      exact ⟨tail, ht, hall⟩
    · rename_i calls1 hcopy
      obtain ⟨tail, ht, hall⟩ :=
        CreateCopy_copy_calls _ _ _ _ _ _ _ _ _ _ _ _ _ _ _ _ _ hcopy
      simp only [Option.some.injEq] at h
      subst h
      exact ⟨tail, ht, hall⟩
  · cases h

theorem CreateCopy_continues (U : Utils) (env : GDALEnv) (client : ShimClient)
    (garbage : Nat → Nat) (auth_srid0 : Nat) (t0 : AffineTransform)
    (pszFilename arrayname : String) (poSrcDS : GDALDataset)
    (hc : client.createArray (SciDBDataset.CreateCopy.array U auth_srid0 t0 arrayname poSrcDS)
      = StatusCode.SUCCESS) (array2 : SciDBSpatialArray) (srsCalls : List ClientCall)
    (hs : SciDBDataset.CreateCopy.setSRS U env poSrcDS
      (SciDBDataset.CreateCopy.array U auth_srid0 t0 arrayname poSrcDS)
      = some (array2, srsCalls)) :
    SciDBDataset.CreateCopy.callsBeforeCopy U env client auth_srid0 t0 arrayname poSrcDS
      = ClientCall.createArray (SciDBDataset.CreateCopy.array U auth_srid0 t0 arrayname
          poSrcDS) :: srsCalls ∧
    SciDBDataset.CreateCopy U env client garbage auth_srid0 t0 pszFilename arrayname poSrcDS
      = SciDBDataset.CreateCopy.transfer U env client garbage pszFilename poSrcDS array2
          (SciDBDataset.CreateCopy.callsBeforeCopy U env client auth_srid0 t0 arrayname
            poSrcDS) := by
  have e : SciDBDataset.CreateCopy.callsBeforeCopy U env client auth_srid0 t0 arrayname
      poSrcDS = ClientCall.createArray (SciDBDataset.CreateCopy.array U auth_srid0 t0
        arrayname poSrcDS) :: srsCalls := by
    unfold SciDBDataset.CreateCopy.callsBeforeCopy
    simp only []
    rw [if_neg (not_not.2 hc), hs]
  refine ⟨e, ?_⟩
  rw [e]
  unfold SciDBDataset.CreateCopy
  simp only []
  rw [if_neg (not_not.2 hc), hs]

theorem CreateCopy_calls (U : Utils) (env : GDALEnv) (client : ShimClient)
    (garbage : Nat → Nat) (auth_srid0 : Nat) (t0 : AffineTransform)
    (pszFilename arrayname : String) (poSrcDS : GDALDataset)
    (res : List ClientCall × Option SciDBDataset)
    (h : SciDBDataset.CreateCopy U env client garbage auth_srid0 t0 pszFilename arrayname
      poSrcDS = some res) :
    ∃ tail, res.1 = SciDBDataset.CreateCopy.callsBeforeCopy U env client auth_srid0 t0
        arrayname poSrcDS ++ tail ∧
      ∀ c ∈ tail, c.isTransfer = true := by
  by_cases hc : client.createArray (SciDBDataset.CreateCopy.array U auth_srid0 t0 arrayname
    poSrcDS) = StatusCode.SUCCESS
  swap
  · unfold SciDBDataset.CreateCopy at h
    unfold SciDBDataset.CreateCopy.callsBeforeCopy
    simp only [] at h ⊢
    rw [if_pos hc, Option.some.injEq] at h
    rw [if_pos hc, ← h]
    exact ⟨[], (List.append_nil _).symm, by simp⟩
  cases hsrs : SciDBDataset.CreateCopy.setSRS U env poSrcDS
    (SciDBDataset.CreateCopy.array U auth_srid0 t0 arrayname poSrcDS) with
  | none =>
    unfold SciDBDataset.CreateCopy at h
    simp only [] at h
    rw [if_neg (not_not.2 hc), hsrs] at h
    cases h
  | some pr =>
    obtain ⟨array2, srsCalls⟩ := pr
    obtain ⟨-, e2⟩ := CreateCopy_continues U env client garbage auth_srid0 t0 pszFilename
      arrayname poSrcDS hc array2 srsCalls hsrs
    rw [e2] at h
    exact CreateCopy_transfer_calls U env client garbage pszFilename poSrcDS array2 _ res h

theorem CreateCopy_failed_create (U : Utils) (env : GDALEnv) (client : ShimClient)
    (garbage : Nat → Nat) (auth_srid0 : Nat) (t0 : AffineTransform)
    (pszFilename arrayname : String) (poSrcDS : GDALDataset)
    (hc : client.createArray (SciDBDataset.CreateCopy.array U auth_srid0 t0 arrayname poSrcDS)
      ≠ StatusCode.SUCCESS) :
    SciDBDataset.CreateCopy U env client garbage auth_srid0 t0 pszFilename arrayname poSrcDS
      = some ([ClientCall.createArray
          (SciDBDataset.CreateCopy.array U auth_srid0 t0 arrayname poSrcDS)], none) := by
  unfold SciDBDataset.CreateCopy
  simp only []
  rw [if_pos hc]

/-! ## Lemmas: the constructors and the block grid -/

theorem paramResolver_eq_PORT (key : String) :
    paramResolver key = ConStringParameter.PORT ↔ key = "port" := by
  unfold paramResolver
  constructor
  · intro h
    split_ifs at h with h1 h2
    exact h2
  · rintro rfl
    decide

theorem parseConnectionString_body_port (out : ConnectionPars) (part : List Char)
    (h : ∀ k v, split ['='] part = [k, v] → String.mk k ≠ "port") :
    ∃ o, ConnectionPars.parseConnectionString.body out part = some o ∧ o.port = out.port := by
  unfold ConnectionPars.parseConnectionString.body
  split
  · rename_i k v hkv
    have hk := h k v hkv
    have hp : paramResolver (String.mk k) ≠ ConStringParameter.PORT :=
      fun e => hk ((paramResolver_eq_PORT _).1 e)
    cases hr : paramResolver (String.mk k)
    · exact ⟨_, rfl, rfl⟩
    · exact ⟨_, rfl, rfl⟩
    · exact absurd hr hp
    · exact ⟨_, rfl, rfl⟩
    · exact ⟨_, rfl, rfl⟩
  · exact ⟨out, rfl, rfl⟩

theorem driver_parseConnectionString_body_port (out : scidbdriver.ConnectionPars)
    (part : List Char) (h : ∀ k v, split ['='] part = [k, v] → String.mk k ≠ "port") :
    ∃ o, scidbdriver.ConnectionPars.parseConnectionString.body out part = some o ∧
      o.port = out.port := by
  unfold scidbdriver.ConnectionPars.parseConnectionString.body
  split
  · rename_i k v hkv
    have hk := h k v hkv
    split_ifs <;> exact ⟨_, rfl, rfl⟩
  · exact ⟨out, rfl, rfl⟩

theorem givesKey_false (key : String) (connstr : List Char) (h : givesKey key connstr = false) :
    ∀ part ∈ split [',', ';', ' '] connstr, ∀ k v, split ['='] part = [k, v] →
      String.mk k ≠ key := by
  intro part hp k v hkv e
  unfold givesKey at h
  rw [List.any_eq_false] at h
  have := h part hp
  rw [hkv] at this
  simp [e] at this

theorem foldlM_port (parts : List (List Char))
    (h : ∀ part ∈ parts, ∀ k v, split ['='] part = [k, v] → String.mk k ≠ "port") :
    ∀ out : ConnectionPars, ∃ pars,
      parts.foldlM ConnectionPars.parseConnectionString.body out = some pars ∧
      pars.port = out.port := by
  induction parts with
  | nil => intro out; exact ⟨out, rfl, rfl⟩
  | cons p ps ih =>
    intro out
    obtain ⟨o, ho, hop⟩ := parseConnectionString_body_port out p (h p (List.mem_cons_self _ _))
    obtain ⟨pars, hpars, hpp⟩ := ih (fun q hq => h q (List.mem_cons_of_mem _ hq)) o
    refine ⟨pars, ?_, hpp.trans hop⟩
    rw [List.foldlM_cons, ho]
    exact hpars

theorem driver_foldlM_port (parts : List (List Char))
    (h : ∀ part ∈ parts, ∀ k v, split ['='] part = [k, v] → String.mk k ≠ "port") :
    ∀ out : scidbdriver.ConnectionPars, ∃ pars,
      parts.foldlM scidbdriver.ConnectionPars.parseConnectionString.body out = some pars ∧
      pars.port = out.port := by
  induction parts with
  | nil => intro out; exact ⟨out, rfl, rfl⟩
  | cons p ps ih =>
    intro out
    obtain ⟨o, ho, hop⟩ :=
      driver_parseConnectionString_body_port out p (h p (List.mem_cons_self _ _))
    obtain ⟨pars, hpars, hpp⟩ := ih (fun q hq => h q (List.mem_cons_of_mem _ hq)) o
    refine ⟨pars, ?_, hpp.trans hop⟩
    rw [List.foldlM_cons, ho]
    exact hpars

theorem parseConnectionString_body_ssl (ssl0 : Bool) (out o : ConnectionPars)
    (part : List Char)
    (hout : out.ssl = decide (out.host.data.take 5 = "https".data) ∨
      (out.ssl = ssl0 ∧ out.host = "https://localhost"))
    (h : ConnectionPars.parseConnectionString.body out part = some o) :
    o.ssl = decide (o.host.data.take 5 = "https".data) ∨
      (o.ssl = ssl0 ∧ o.host = "https://localhost") := by
  unfold ConnectionPars.parseConnectionString.body at h
  split at h
  · rename_i k v hkv
    cases hr : paramResolver (String.mk k) <;> rw [hr] at h <;> simp only [] at h
    · simp only [Option.some.injEq] at h
      subst h
      exact Or.inl rfl
    · simp only [Option.some.injEq] at h
      subst h
      exact hout
    · cases hp : lexical_cast_int v with
      | none => rw [hp] at h; cases h
      | some p =>
        rw [hp] at h
        simp only [Option.map_some', Option.some.injEq] at h
        subst h
        exact hout
    · simp only [Option.some.injEq] at h
      subst h
      exact hout
    · simp only [Option.some.injEq] at h
      subst h
      exact hout
  · simp only [Option.some.injEq] at h
    subst h
    exact hout

theorem foldlM_ssl (ssl0 : Bool) (parts : List (List Char)) :
    ∀ out pars : ConnectionPars,
      (out.ssl = decide (out.host.data.take 5 = "https".data) ∨
        (out.ssl = ssl0 ∧ out.host = "https://localhost")) →
      parts.foldlM ConnectionPars.parseConnectionString.body out = some pars →
      (pars.ssl = decide (pars.host.data.take 5 = "https".data) ∨
        (pars.ssl = ssl0 ∧ pars.host = "https://localhost")) := by
  induction parts with
  | nil =>
    intro out pars hout h
    simp only [List.foldlM_nil] at h
    cases h
    exact hout
  | cons p ps ih =>
    intro out pars hout h
    rw [List.foldlM_cons] at h
    cases hb : ConnectionPars.parseConnectionString.body out p with
    | none => rw [hb] at h; cases h
    | some o =>
      rw [hb] at h
      exact ih o pars (parseConnectionString_body_ssl ssl0 out o p hout hb) h

theorem parseConnectionString_ssl (ssl0 : Bool) (connstr : String) (pars : ConnectionPars)
    (h : ConnectionPars.parseConnectionString ssl0 connstr = some pars) :
    pars.ssl = decide (pars.host.data.take 5 = "https".data) ∨
      (pars.ssl = ssl0 ∧ pars.host = "https://localhost") :=
  foldlM_ssl ssl0 _ _ pars (Or.inr ⟨rfl, rfl⟩) h

/-! ## Lemmas: unrecognised keys and the source window -/

theorem parseConnectionString_body_unknown_key (out : ConnectionPars) (part k v : List Char)
    (hkv : split ['='] part = [k, v])
    (h1 : String.mk k ≠ "host") (h2 : String.mk k ≠ "port") (h3 : String.mk k ≠ "array")
    (h4 : String.mk k ≠ "user") (h5 : String.mk k ≠ "password") :
    ConnectionPars.parseConnectionString.body out part
      = some { out with host := String.mk v, ssl := decide (v.take 5 = "https".data) } := by
  unfold ConnectionPars.parseConnectionString.body
  rw [hkv]
  simp only [paramResolver, h1, h2, h3, h4, h5, if_false]

theorem coords_in_bounds {F : Type} (lexical_cast_float : List Char → Option F) :
    ∀ (fields : List (List Char)) (i : Nat) (src_coords : List F) (k : Nat),
      i + fields.length ≤ 4 →
      SelectProperties.parsePropertiesString.coords lexical_cast_float fields i src_coords
        ≠ Except.error (ParseFault.out_of_bounds k) := by
  intro fields
  induction fields with
  | nil =>
    intro i c k _ h
    simp [SelectProperties.parsePropertiesString.coords] at h
  | cons f fs ih =>
    intro i c k hlen h
    rw [List.length_cons] at hlen
    unfold SelectProperties.parsePropertiesString.coords at h
    cases hf : lexical_cast_float f with
    | none => rw [hf] at h; simp at h
    | some v =>
      rw [hf] at h
      simp only [] at h
      rw [if_pos (by omega)] at h
      exact ih (i + 1) _ k (by omega) h

theorem coords_overflow {F : Type} (lexical_cast_float : List Char → Option F) :
    ∀ (fields : List (List Char)) (i : Nat) (src_coords : List F),
      i ≤ 4 → 4 < i + fields.length →
      (∀ f ∈ fields.take (5 - i), (lexical_cast_float f).isSome = true) →
      SelectProperties.parsePropertiesString.coords lexical_cast_float fields i src_coords
        = Except.error (ParseFault.out_of_bounds 4) := by
  intro fields
  induction fields with
  | nil =>
    intro i c hi hlen _
    simp only [List.length_nil] at hlen
    omega
  | cons f fs ih =>
    intro i c hi hlen hp
    rw [List.length_cons] at hlen
    have hpos : 5 - i = (4 - i) + 1 := by omega
    rw [hpos, List.take_succ_cons] at hp
    unfold SelectProperties.parsePropertiesString.coords
    cases hf : lexical_cast_float f with
    | none =>
      have := hp f (List.mem_cons_self _ _)
      rw [hf] at this
      cases this
    | some v =>
      simp only []
      by_cases h4 : i < 4
      · rw [if_pos h4]
        refine ih (i + 1) _ (by omega) (by omega) ?_
        intro g hg
        have e : 5 - (i + 1) = 4 - i := by omega
        rw [e] at hg
        exact hp g (List.mem_cons_of_mem _ hg)
      · rw [if_neg h4]
        have : i = 4 := by omega
        rw [this]

/-- C4: for a block of `n` cells and bands of byte widths `w_0 .. w_{k-1}` (`k` at most
65535, the range of the 16-bit band counter), the band loop of `CreateCopy` returns a chunk,
the block step of `CreateCopy` hands exactly this chunk to `insertData`, and the chunk holds
one record per cell with the attributes in declared order and no padding: byte `b` of the
value of band `j` for cell `i` is at offset
`i * (w_0 + ... + w_{k-1}) + (w_0 + ... + w_{j-1}) + b`. -/
theorem CreateCopy_chunk_layout (U : Utils) (env : GDALEnv) (poSrcDS : GDALDataset)
    (client : ShimClient) (garbage : Nat → Nat) (array : SciDBSpatialArray)
    (dimx dimy : SciDBDimension) (nBands nBlockX nBlockY : Int) (bx by_ : Nat)
    (rest : List (Nat × Nat)) (chunk : List Nat) (k : Nat) (calls : List ClientCall)
    (r : Rect) (n : Nat)
    (hr : r = { xmin := (SciDBDataset.CreateCopy.bounds dimx bx).1,
                ymin := (SciDBDataset.CreateCopy.bounds dimy by_).1,
                xmax := (SciDBDataset.CreateCopy.bounds dimx bx).2,
                ymax := (SciDBDataset.CreateCopy.bounds dimy by_).2 })
    (hbands : nBands = (array.attrs.length : Int)) (h16 : array.attrs.length ≤ 65535)
    (hcells : (1 + r.xmax - r.xmin) * (1 + r.ymax - r.ymin) = (n : Int))
    (hn31 : n ≤ 2147483647)
    (hrec : U.widths array.attrs ≤ chunk.length)
    (hfit : n * U.widths array.attrs ≤ chunk.length)
    (hmax : chunk.length ≤ 9223372036854775807)
    (hio : ∀ j a, array.attrs[j]? = some a →
      (SciDBDataset.CreateCopy.bandData U poSrcDS r j a).length = n * U.width a)
    (hblocks : toUInt32 (nBlockX * nBlockY) ≠ 0)
    (hprog : env.pfnProgress k (toUInt32 (toUInt32 ((bx : Int) * nBlockY + (by_ : Int))
      / toUInt32 (nBlockX * nBlockY))) = true) :
    ∃ out : List Nat,
      SciDBDataset.CreateCopy.interleave U poSrcDS garbage array.attrs
        (SciDBDataset.CreateCopy.pixelSize U array.attrs) nBands r chunk = some out ∧
      SciDBDataset.CreateCopy.copy U env poSrcDS client garbage array
          (SciDBDataset.CreateCopy.pixelSize U array.attrs) dimx dimy nBands nBlockX nBlockY
          ((bx, by_) :: rest) chunk k calls
        = (if client.insertData k array out r ≠ StatusCode.SUCCESS then
            some (calls ++ [ClientCall.insertData array out r,
              ClientCall.removeArray array.name], false)
          else
            SciDBDataset.CreateCopy.copy U env poSrcDS client garbage array
              (SciDBDataset.CreateCopy.pixelSize U array.attrs) dimx dimy nBands nBlockX nBlockY
              rest out (k + 1) (calls ++ [ClientCall.insertData array out r])) ∧
      out.length = chunk.length ∧
      ∀ i j a b, i < n → array.attrs[j]? = some a → b < U.scidbTypeIdBytes a.typeId →
        ∃ v : Nat,
          (SciDBDataset.CreateCopy.bandData U poSrcDS r j a)[
            i * U.scidbTypeIdBytes a.typeId + b]? = some v ∧
          out[i * U.widths array.attrs + U.widths (array.attrs.take j) + b]? = some v := by
  obtain ⟨out, ho, hlen, hin⟩ := CreateCopy_interleave_spec U poSrcDS garbage array.attrs
    nBands r chunk n hbands h16 hcells hn31 hrec hfit hmax hio
  refine ⟨out, ho, ?_, hlen, ?_⟩
  · rw [SciDBDataset.CreateCopy.copy]
    rw [if_neg hblocks, hprog]
    simp only [Bool.true_eq_false, if_false]
    rw [← hr, ho]
  · intro i j a b hi ha hb
    have hlt : i * U.width a + b
        < (SciDBDataset.CreateCopy.bandData U poSrcDS r j a).length := by
      rw [hio j a ha]
      have h1 : (i + 1) * U.width a ≤ n * U.width a := Nat.mul_le_mul_right _ hi
      have e : (i + 1) * U.width a = i * U.width a + U.width a := by ring
      have hb' : b < U.width a := hb
      omega
    exact ⟨_, List.getElem?_eq_getElem hlt,
      (hin i j a b hi ha hb).trans (List.getElem?_eq_getElem hlt)⟩

/-- Witness of C4: the first block of `exampleSource 2 2 2` (bands of 2 and 1 bytes, 4 cells)
with chunks of 2 x 2.  The whole of `CreateCopy` is evaluated as well: the chunk handed to
`insertData` is `[100, 101, 200, 102, 103, 201, 104, 105, 202, 106, 107, 203]`, the two bytes
of band 1 followed by the byte of band 2 for each of the four cells. -/
theorem CreateCopy_chunk_layout_witness :
    SciDBDataset.CreateCopy (exampleUtils 2 2) exampleEnv (exampleClient 1) (fun _ => 0) 0
        ⟨0, 1, 0, 0, 0, 1⟩ "SCIDB:array=copy" "copy" (exampleSource 2 2 2)
      = some ([ClientCall.createArray exampleCopyArray,
          ClientCall.insertData exampleCopyArray
            [100, 101, 200, 102, 103, 201, 104, 105, 202, 106, 107, 203] ⟨0, 0, 1, 1⟩], none) ∧
    ∃ out : List Nat,
      SciDBDataset.CreateCopy.interleave (exampleUtils 2 2) (exampleSource 2 2 2) (fun _ => 0)
        exampleCopyArray.attrs
        (SciDBDataset.CreateCopy.pixelSize (exampleUtils 2 2) exampleCopyArray.attrs) 2
        ⟨0, 0, 1, 1⟩ (malloc (fun _ => 0) 12) = some out ∧
      out.length = 12 := by
  refine ⟨by decide, ?_⟩
  obtain ⟨out, h1, -, h2, -⟩ := CreateCopy_chunk_layout (exampleUtils 2 2) exampleEnv
    (exampleSource 2 2 2) (exampleClient 1) (fun _ => 0) exampleCopyArray
    ⟨"x", 0, 1, 2, "int64"⟩ ⟨"y", 0, 1, 2, "int64"⟩ 2 1 1 0 0 [] (malloc (fun _ => 0) 12) 0
    [ClientCall.createArray exampleCopyArray] ⟨0, 0, 1, 1⟩ 4
    (by decide) (by decide) (by decide) (by decide) (by decide) (by decide) (by decide)
    (by decide)
    (fun j a h => by
      match j, h with
      | 0, h =>
        simp only [exampleCopyArray, List.getElem?_cons_zero, Option.some.injEq] at h
        subst h; decide
      | 1, h =>
        simp only [exampleCopyArray, List.getElem?_cons_succ, List.getElem?_cons_zero,
          Option.some.injEq] at h
        subst h; decide
      | j + 2, h => simp [exampleCopyArray] at h)
    (by decide) (by decide)
  exact ⟨out, h1, h2.trans (by decide)⟩

/-- C5, the code at a failing input: for a source raster of 5 x 1 pixels (`nXSize = 5`,
`nYSize = 1`) and chunks of 4 x 4, `CreateCopy` creates the array `x = 0:0`, `y = 0:4` and
passes to `insertData` the rectangles `x` in `[0, 0]`, `y` in `[0, 3]` and `x` in `[4, 0]`,
`y` in `[0, 3]`.  The second one has `xmin > xmax = dimx.high`, and the cell `x = 0`, `y = 4`
of the array lies in neither. -/
theorem CreateCopy_rectangles_5x1 :
    (SciDBDataset.CreateCopy (exampleUtils 4 4) exampleEnv (exampleClient 1) (fun _ => 0) 0
        ⟨0, 1, 0, 0, 0, 1⟩ "SCIDB:array=copy" "copy" (exampleSource 1 5 1)).map
      (fun p => (p.1.filterMap ClientCall.created, p.1.filterMap ClientCall.rect))
      = some ([[⟨"x", 0, 0, 4, "int64"⟩, ⟨"y", 0, 4, 4, "int64"⟩]],
          [⟨0, 0, 0, 3⟩, ⟨4, 0, 0, 3⟩]) := by
  decide

/-- C6: for an array with two dimensions of distinct names whose `xdim` and `ydim` are both
non-empty and name the two dimensions (in either store order), `getXDimIdx` returns the
position of the dimension named `xdim` and `getYDimIdx` the position of the dimension named
`ydim`; when the store order is `(ydim, xdim)` the x index is 1 and the y index 0.  The cached
indexes are unresolved or were resolved from the current names (`Coherent`). -/
theorem getDimIdx_named (U : Utils) (a : SciDBSpatialArray) (d0 d1 : SciDBDimension)
    (hd : a.dims = [d0, d1]) (hne : d0.name ≠ d1.name)
    (hx : a.xdim ≠ "") (hy : a.ydim ≠ "")
    (hnames : (d0.name = a.xdim ∧ d1.name = a.ydim) ∨ (d0.name = a.ydim ∧ d1.name = a.xdim))
    (hc : a.Coherent U) :
    ∃ (i j : Int) (ax ay : SciDBSpatialArray),
      a.getXDimIdx U = some (i, ax) ∧ a.getYDimIdx U = some (j, ay) ∧
      (dimAt a.dims i).map SciDBDimension.name = some a.xdim ∧
      (dimAt a.dims j).map SciDBDimension.name = some a.ydim ∧
      (∀ p : Nat, (a.dims[p]?).map SciDBDimension.name = some a.xdim → i = (p : Int)) ∧
      (∀ p : Nat, (a.dims[p]?).map SciDBDimension.name = some a.ydim → j = (p : Int)) ∧
      (d0.name = a.ydim → d1.name = a.xdim → i = 1 ∧ j = 0) := by
  obtain ⟨a1, h1, hgx, hgy⟩ := getDimIdx_of_coherent U a d0 d1 hd hc
  have he := deriveDimensionIndexes_eq U a d0 d1 hd
  rw [h1] at he
  injection he with he
  have hax : a.axisNames U = (a.xdim, a.ydim) := by
    simp [SciDBSpatialArray.axisNames, hx, hy]
  rw [hax] at he
  have hpos : ∀ (p : Nat) (n : String), ([d0, d1][p]?).map SciDBDimension.name = some n →
      (p = 0 ∧ d0.name = n) ∨ (p = 1 ∧ d1.name = n) := by
    intro p n hp
    match p, hp with
    | 0, hp => left; simpa using hp
    | 1, hp => right; simpa using hp
    | p + 2, hp => simp at hp
  refine ⟨a1._x_idx, a1._y_idx, a1, a1, hgx, hgy, ?_, ?_, ?_, ?_, ?_⟩
  all_goals subst he
  all_goals dsimp only
  · rcases hnames with ⟨h0, h1⟩ | ⟨h0, h1⟩
    · have : d1.name ≠ a.xdim := fun h => hne (h0.trans h.symm)
      simp [this, dimAt, hd, h0]
    · simp [h1, dimAt, hd]
  · rcases hnames with ⟨h0, h1⟩ | ⟨h0, h1⟩
    · simp [h1, dimAt, hd]
    · have : d1.name ≠ a.ydim := fun h => hne (h0.trans h.symm)
      simp [this, dimAt, hd, h0]
  · intro p hp
    rw [hd] at hp
    rcases hpos p _ hp with ⟨rfl, h⟩ | ⟨rfl, h⟩
    · have : d1.name ≠ a.xdim := fun h' => hne (h.trans h'.symm)
      simp [this]
    · simp [h]
  · intro p hp
    rw [hd] at hp
    rcases hpos p _ hp with ⟨rfl, h⟩ | ⟨rfl, h⟩
    · have : d1.name ≠ a.ydim := fun h' => hne (h.trans h'.symm)
      simp [this, h]
    · simp [h]
  · intro h0 h1
    have hxy : a.xdim ≠ a.ydim := fun h' => hne (by rw [h0, h1, h'])
    simp [h1, h0, hxy]

/-- Witness of C6: the array `<y, x>` with `xdim = "x"`, `ydim = "y"` and unresolved indexes
resolves to x index 1 and y index 0. -/
theorem getDimIdx_named_witness :
    ∃ (i j : Int) (ax ay : SciDBSpatialArray),
      SciDBSpatialArray.getXDimIdx (exampleUtils 512 512)
        { SciDBSpatialArray.new 0 ⟨0, 1, 0, 0, 0, 1⟩ with
          dims := [⟨"y", 0, 99, 10, "int64"⟩, ⟨"x", 0, 49, 10, "int64"⟩],
          xdim := "x", ydim := "y" } = some (i, ax) ∧
      SciDBSpatialArray.getYDimIdx (exampleUtils 512 512)
        { SciDBSpatialArray.new 0 ⟨0, 1, 0, 0, 0, 1⟩ with
          dims := [⟨"y", 0, 99, 10, "int64"⟩, ⟨"x", 0, 49, 10, "int64"⟩],
          xdim := "x", ydim := "y" } = some (j, ay) ∧ i = 1 ∧ j = 0 := by
  obtain ⟨i, j, ax, ay, h1, h2, -, -, -, -, h⟩ :=
    getDimIdx_named (exampleUtils 512 512)
      { SciDBSpatialArray.new 0 ⟨0, 1, 0, 0, 0, 1⟩ with
        dims := [⟨"y", 0, 99, 10, "int64"⟩, ⟨"x", 0, 49, 10, "int64"⟩],
        xdim := "x", ydim := "y" }
      ⟨"y", 0, 99, 10, "int64"⟩ ⟨"x", 0, 49, 10, "int64"⟩ rfl (by decide) (by decide)
      (by decide) (Or.inr ⟨rfl, rfl⟩) (Or.inl ⟨by decide, by decide⟩)
  exact ⟨i, j, ax, ay, h1, h2, (h rfl rfl).1, (h rfl rfl).2⟩

/-- C7: for an array with two dimensions whose `xdim` and `ydim` are empty, the axes are
resolved against the default names: `deriveDimensionIndexes` succeeds, the getters return its
indexes, and when a dimension is named `SCIDB4GDAL_DEFAULT_XDIMNAME` the x index is the
position of a dimension of that name (the last one, so the position when the names are
distinct); likewise for `SCIDB4GDAL_DEFAULT_YDIMNAME` and the y index. -/
theorem deriveDimensionIndexes_default (U : Utils) (a : SciDBSpatialArray)
    (d0 d1 : SciDBDimension) (hd : a.dims = [d0, d1])
    (hx : a.xdim = "") (hy : a.ydim = "") (hc : a.Coherent U) :
    ∃ a1 : SciDBSpatialArray,
      a.deriveDimensionIndexes U = some a1 ∧
      a.getXDimIdx U = some (a1._x_idx, a1) ∧ a.getYDimIdx U = some (a1._y_idx, a1) ∧
      (∀ p : Nat, (a.dims[p]?).map SciDBDimension.name = some U.SCIDB4GDAL_DEFAULT_XDIMNAME →
        (dimAt a.dims a1._x_idx).map SciDBDimension.name = some U.SCIDB4GDAL_DEFAULT_XDIMNAME
          ∧ (p : Int) ≤ a1._x_idx) ∧
      (∀ p : Nat, (a.dims[p]?).map SciDBDimension.name = some U.SCIDB4GDAL_DEFAULT_YDIMNAME →
        (dimAt a.dims a1._y_idx).map SciDBDimension.name = some U.SCIDB4GDAL_DEFAULT_YDIMNAME
          ∧ (p : Int) ≤ a1._y_idx) := by
  obtain ⟨a1, h1, hgx, hgy⟩ := getDimIdx_of_coherent U a d0 d1 hd hc
  have he := deriveDimensionIndexes_eq U a d0 d1 hd
  rw [h1] at he
  injection he with he
  have hax : a.axisNames U = (U.SCIDB4GDAL_DEFAULT_XDIMNAME, U.SCIDB4GDAL_DEFAULT_YDIMNAME) := by
    simp [SciDBSpatialArray.axisNames, hx, hy]
  rw [hax] at he
  have hpos : ∀ (p : Nat) (n : String), ([d0, d1][p]?).map SciDBDimension.name = some n →
      (p = 0 ∧ d0.name = n) ∨ (p = 1 ∧ d1.name = n) := by
    intro p n hp
    match p, hp with
    | 0, hp => left; simpa using hp
    | 1, hp => right; simpa using hp
    | p + 2, hp => simp at hp
  refine ⟨a1, h1, hgx, hgy, ?_, ?_⟩
  all_goals subst he
  all_goals dsimp only
  · intro p hp
    rw [hd] at hp
    rcases hpos p _ hp with ⟨rfl, h⟩ | ⟨rfl, h⟩
    · by_cases h' : d1.name = U.SCIDB4GDAL_DEFAULT_XDIMNAME
      · simp [h', dimAt, hd]
      · simp [h', dimAt, hd, h]
    · simp [h, dimAt, hd]
  · intro p hp
    rw [hd] at hp
    rcases hpos p _ hp with ⟨rfl, h⟩ | ⟨rfl, h⟩
    · by_cases h' : d1.name = U.SCIDB4GDAL_DEFAULT_YDIMNAME
      · simp [h', dimAt, hd]
      · simp [h', dimAt, hd, h]
    · simp [h, dimAt, hd]

/-- Witness of C7: the array `<y, x>` with no axis names set and default names `x`, `y`
resolves to x index 1 and y index 0. -/
theorem deriveDimensionIndexes_default_witness :
    ∃ a1 : SciDBSpatialArray,
      SciDBSpatialArray.deriveDimensionIndexes (exampleUtils 512 512)
        { SciDBSpatialArray.new 0 ⟨0, 1, 0, 0, 0, 1⟩ with
          dims := [⟨"y", 0, 99, 10, "int64"⟩, ⟨"x", 0, 49, 10, "int64"⟩] } = some a1 ∧
      a1._x_idx = 1 ∧ a1._y_idx = 0 := by
  obtain ⟨a1, h1, -, -, h2, h3⟩ :=
    deriveDimensionIndexes_default (exampleUtils 512 512)
      { SciDBSpatialArray.new 0 ⟨0, 1, 0, 0, 0, 1⟩ with
        dims := [⟨"y", 0, 99, 10, "int64"⟩, ⟨"x", 0, 49, 10, "int64"⟩] }
      ⟨"y", 0, 99, 10, "int64"⟩ ⟨"x", 0, 49, 10, "int64"⟩ rfl rfl rfl
      (Or.inl ⟨by decide, by decide⟩)
  refine ⟨a1, h1, ?_, ?_⟩
  · have hx := deriveDimensionIndexes_idx_nonneg _ _ _ _ _ rfl h1
    have := (h2 1 rfl).2
    omega
  · have := (h3 0 rfl).1
    have hy := (deriveDimensionIndexes_idx_nonneg _ _ _ _ _ rfl h1).2.2.2
    rcases hy with hy | hy
    · exact hy
    · rw [hy] at this
      exact absurd this (by decide)

/-- C8: axis resolution is idempotent.  For every array with two dimensions (axis names set
or not) whose cached indexes are both unresolved or both resolved, as the class keeps them:
`getXDimIdx` and `getYDimIdx` succeed, calling them again on the resulting object returns the
same two indexes and leaves the object as it is, and running `deriveDimensionIndexes` again
on its own result returns the same object, hence the same two indexes. -/
theorem axis_resolution_idempotent (U : Utils) (a : SciDBSpatialArray)
    (d0 d1 : SciDBDimension) (hd : a.dims = [d0, d1])
    (hreach : a._x_idx < 0 ↔ a._y_idx < 0) :
    (∃ (i j : Int) (a1 : SciDBSpatialArray),
      a.getXDimIdx U = some (i, a1) ∧ a1.getYDimIdx U = some (j, a1) ∧
      a1.getXDimIdx U = some (i, a1) ∧ a1.getYDimIdx U = some (j, a1)) ∧
    (∃ b : SciDBSpatialArray,
      a.deriveDimensionIndexes U = some b ∧ b.deriveDimensionIndexes U = some b ∧
      (b.getXDimIdx U).map Prod.fst = some b._x_idx ∧
      (b.getYDimIdx U).map Prod.fst = some b._y_idx) := by
  obtain ⟨b, hb⟩ : ∃ b, a.deriveDimensionIndexes U = some b :=
    ⟨_, deriveDimensionIndexes_eq U a d0 d1 hd⟩
  obtain ⟨hfix, hbx, hby⟩ := deriveDimensionIndexes_fixed U a b d0 d1 hd hb
  have hbx' : ¬ b._x_idx < 0 := by omega
  have hby' : ¬ b._y_idx < 0 := by omega
  constructor
  · by_cases hx : a._x_idx < 0
    · refine ⟨b._x_idx, b._y_idx, b, ?_, ?_, ?_, ?_⟩
      · simp only [SciDBSpatialArray.getXDimIdx, hx, if_true, hb]
      · simp only [SciDBSpatialArray.getYDimIdx, hby', if_false]
      · simp only [SciDBSpatialArray.getXDimIdx, hbx', if_false]
      · simp only [SciDBSpatialArray.getYDimIdx, hby', if_false]
    · have hy : ¬ a._y_idx < 0 := fun h => hx (hreach.mpr h)
      refine ⟨a._x_idx, a._y_idx, a, ?_, ?_, ?_, ?_⟩
      · simp only [SciDBSpatialArray.getXDimIdx, hx, if_false]
      · simp only [SciDBSpatialArray.getYDimIdx, hy, if_false]
      · simp only [SciDBSpatialArray.getXDimIdx, hx, if_false]
      · simp only [SciDBSpatialArray.getYDimIdx, hy, if_false]
  · refine ⟨b, hb, hfix, ?_, ?_⟩
    · simp only [SciDBSpatialArray.getXDimIdx, hbx', if_false, Option.map_some']
    · simp only [SciDBSpatialArray.getYDimIdx, hby', if_false, Option.map_some']

/-- Witness of C8: the array `<y, x>` with `xdim = "x"`, `ydim = "y"` and unresolved
indexes. -/
theorem axis_resolution_idempotent_witness :
    ∃ (i j : Int) (a1 : SciDBSpatialArray),
      SciDBSpatialArray.getXDimIdx (exampleUtils 512 512)
        { SciDBSpatialArray.new 0 ⟨0, 1, 0, 0, 0, 1⟩ with
          dims := [⟨"y", 0, 99, 10, "int64"⟩, ⟨"x", 0, 49, 10, "int64"⟩],
          xdim := "x", ydim := "y" } = some (i, a1) ∧
      a1.getYDimIdx (exampleUtils 512 512) = some (j, a1) ∧
      a1.getXDimIdx (exampleUtils 512 512) = some (i, a1) ∧
      a1.getYDimIdx (exampleUtils 512 512) = some (j, a1) :=
  (axis_resolution_idempotent (exampleUtils 512 512)
    { SciDBSpatialArray.new 0 ⟨0, 1, 0, 0, 0, 1⟩ with
      dims := [⟨"y", 0, 99, 10, "int64"⟩, ⟨"x", 0, 49, 10, "int64"⟩],
      xdim := "x", ydim := "y" }
    ⟨"y", 0, 99, 10, "int64"⟩ ⟨"x", 0, 49, 10, "int64"⟩ rfl
    ⟨fun _ => by decide, fun _ => by decide⟩).1

/-- C9: `isSpatial ()` is true if and only if `xdim` and `ydim` are both non-empty and at
least one of `srtext` and `proj4text` is non-empty; it is false for a freshly constructed
`SciDBSpatialArray`. -/
theorem isSpatial_iff :
    (∀ r : SciDBSpatialReference, r.isSpatial = true ↔
      (r.xdim ≠ "" ∧ r.ydim ≠ "" ∧ (r.srtext ≠ "" ∨ r.proj4text ≠ ""))) ∧
    (∀ (auth_srid : Nat) (t : AffineTransform),
      (SciDBSpatialArray.new auth_srid t).toSciDBSpatialReference.isSpatial = false) := by
  constructor
  · intro r
    simp [SciDBSpatialReference.isSpatial, and_assoc]
  · intro auth_srid t
    rfl

/-- C10: for an array with at least one attribute (and no more than the 32-bit loop counter
can count), `getFormatString` returns `(` followed by the type tags of the attributes in
declared order separated by `,` and followed by `)`. -/
theorem getFormatString_spec (a : SciDBArray) (hne : a.attrs ≠ [])
    (hlen : a.attrs.length ≤ 4294967296) :
    a.getFormatString
      = some ("(" ++ String.intercalate "," (a.attrs.map SciDBAttribute.typeId) ++ ")") := by
  obtain ⟨rest, last, hsplit⟩ : ∃ rest last, a.attrs = rest ++ [last] :=
    ⟨a.attrs.dropLast, a.attrs.getLast hne, (List.dropLast_append_getLast hne).symm⟩
  have hl : (a.attrs.length : Int) = rest.length + 1 := by rw [hsplit]; simp
  have hlen' : (a.attrs.length : Int) ≤ 4294967296 := by exact_mod_cast hlen
  have hb : toSizeT ((a.attrs.length : Int) - 1) = (a.attrs.length : Int) - 1 :=
    toSizeT_of_range (by omega) (by omega)
  have hloop := getFormatString_loop_spec a.attrs hlen' last rest [] (a.attrs.length + 1) "("
    (by simpa using hsplit) (by have : a.attrs.length = rest.length + 1 := by
                                  rw [hsplit]; simp
                                omega)
  have hidx : ((a.attrs.length : Int) - 1).toNat = rest.length := by omega
  have hlast : a.attrs[rest.length]? = some last := by
    rw [hsplit, List.getElem?_append_right (le_refl _)]; simp
  unfold SciDBArray.getFormatString
  simp only [hb, hidx, hlast]
  simp only [List.length_nil, Nat.cast_zero] at hloop
  rw [hloop]
  simp only
  rw [foldl_tags_append_last, ← hsplit]

/-- Witness of C10: the array `test` with attributes `a:int8`, `b:float64` has the cell format
string `(int8,float64)`. -/
theorem getFormatString_spec_witness :
    SciDBArray.getFormatString
        ⟨"test", [⟨"a", "int8", false⟩, ⟨"b", "float64", false⟩], []⟩
      = some "(int8,float64)" :=
  (getFormatString_spec ⟨"test", [⟨"a", "int8", false⟩, ⟨"b", "float64", false⟩], []⟩
    (by decide) (by decide)).trans (by decide)

/-- C11: the cell format string of the attributes `int16` (not nullable) and `uint8`
(nullable) is `(int16,uint8)`, without a marker for the nullable attribute, and a nullable
`uint8` attribute renders exactly as a non-nullable one. -/
theorem getFormatString_nullable_unmarked :
    SciDBArray.getFormatString ⟨"a", [⟨"b1", "int16", false⟩, ⟨"b2", "uint8", true⟩], []⟩ =
      some "(int16,uint8)" ∧
    SciDBArray.getFormatString ⟨"a", [⟨"b2", "uint8", true⟩], []⟩ =
      SciDBArray.getFormatString ⟨"a", [⟨"b2", "uint8", false⟩], []⟩ := by
  decide

/-- C12, the code at a failing input: array metadata without attributes.  `getFormatString`
reports no error for it: with `attrs.size () - 1` wrapped, its loop reads `attrs[0]` of the
empty vector, which is undefined.  `CreateCopy` on a source without bands builds such
metadata and, whatever gateway it talks to, starts by calling `createArray` for it; with a
gateway that rejects the call it returns `NULL` only after that call. -/
theorem zero_attributes_not_rejected :
    emptyArray.attrs = [] ∧
    SciDBArray.getFormatString emptyArray.toSciDBArray = none ∧
    SciDBDataset.CreateCopy.array (exampleUtils 2 2) 0 ⟨0, 1, 0, 0, 0, 1⟩ "copy"
      (exampleSource 0 1 1) = emptyArray ∧
    (∀ (env : GDALEnv) (client : ShimClient),
      (SciDBDataset.CreateCopy.callsBeforeCopy (exampleUtils 2 2) env client 0
        ⟨0, 1, 0, 0, 0, 1⟩ "copy" (exampleSource 0 1 1)).head?
        = some (ClientCall.createArray emptyArray)) ∧
    SciDBDataset.CreateCopy (exampleUtils 2 2) exampleEnv createFailClient (fun _ => 0) 0
        ⟨0, 1, 0, 0, 0, 1⟩ "SCIDB:array=copy" "copy" (exampleSource 0 1 1)
      = some ([ClientCall.createArray emptyArray], none) := by
  refine ⟨by decide, by decide, by decide, ?_, by decide⟩
  intro env client
  have e : SciDBDataset.CreateCopy.array (exampleUtils 2 2) 0 ⟨0, 1, 0, 0, 0, 1⟩ "copy"
      (exampleSource 0 1 1) = emptyArray := by decide
  unfold SciDBDataset.CreateCopy.callsBeforeCopy
  simp only [e]
  split_ifs
  · rfl
  · cases SciDBDataset.CreateCopy.setSRS (exampleUtils 2 2) env (exampleSource 0 1 1)
      emptyArray <;> rfl

/-- C13: at a failing input.  The source is georeferenced, the gateway accepts `createArray`
and `insertData` but answers `updateSRS` with an error, and the final `GDALOpen` succeeds:
`CreateCopy` calls `updateSRS`, goes on copying and returns the dataset. -/
theorem CreateCopy_updateSRS_status_ignored :
    SciDBDataset.CreateCopy (exampleUtils 2 2) (openEnv ⟨geoArraySRS, 1, 1⟩) srsFailClient
        (fun _ => 0) 0 ⟨0, 1, 0, 0, 0, 1⟩ "SCIDB:array=copy" "copy" geoSource
      = some ([ClientCall.createArray geoArray, ClientCall.updateSRS geoArraySRS,
          ClientCall.insertData geoArraySRS [100, 101, 0, 0, 0, 0, 0, 0] ⟨0, 0, 0, 0⟩],
          some ⟨geoArraySRS, 1, 1⟩) ∧
    srsFailClient.updateSRS geoArraySRS = StatusCode.ERROR 1 := by
  decide

/-- C14: `Open` returns a dataset only if the metadata fetch returned `SUCCESS` and the
fetched array has exactly two dimensions (the dataset is then the one the constructor builds
from that array); and when the file name is not `NULL` and the connection string parses,
`Open` returns `NULL` whenever the fetch fails or the dimension count is not 2. -/
theorem Open_two_dimensions (U : Utils) (client : ShimClient) (poOpenInfo : GDALOpenInfo) :
    (∀ ds, SciDBDataset.Open U client poOpenInfo = some (some ds) →
      ∃ connstr pars, poOpenInfo.pszFilename = some connstr ∧
        scidbdriver.ConnectionPars.parseConnectionString connstr = some pars ∧
        (client.getArrayDesc pars.arrayname).1 = StatusCode.SUCCESS ∧
        (client.getArrayDesc pars.arrayname).2.dims.length = 2 ∧
        SciDBDataset.new U (client.getArrayDesc pars.arrayname).2 = some ds) ∧
    (∀ connstr pars, poOpenInfo.pszFilename = some connstr →
      scidbdriver.ConnectionPars.parseConnectionString connstr = some pars →
      ((client.getArrayDesc pars.arrayname).1 ≠ StatusCode.SUCCESS ∨
        (client.getArrayDesc pars.arrayname).2.dims.length ≠ 2) →
      SciDBDataset.Open U client poOpenInfo = some none) := by
  constructor
  · intro ds h
    unfold SciDBDataset.Open at h
    cases hf : poOpenInfo.pszFilename with
    | none => rw [hf] at h; cases h
    | some connstr =>
      rw [hf] at h
      simp only [] at h
      by_cases h1 : ¬ SciDBDataset.Identify poOpenInfo = true
      · rw [if_pos h1] at h; cases h
      rw [if_neg h1] at h
      by_cases h2 : poOpenInfo.eAccess = GDALAccess.GA_Update
      · rw [if_pos h2] at h; cases h
      rw [if_neg h2] at h
      cases hp : scidbdriver.ConnectionPars.parseConnectionString connstr with
      | none => rw [hp] at h; cases h
      | some pars =>
        rw [hp] at h
        simp only [] at h
        by_cases h3 : (client.getArrayDesc pars.arrayname).1 ≠ StatusCode.SUCCESS
        · rw [if_pos h3] at h; cases h
        rw [if_neg h3] at h
        by_cases h4 : (client.getArrayDesc pars.arrayname).2.dims.length ≠ 2
        · rw [if_pos h4] at h; cases h
        rw [if_neg h4] at h
        refine ⟨connstr, pars, rfl, hp, not_not.1 h3, not_not.1 h4, ?_⟩
        cases hn : SciDBDataset.new U (client.getArrayDesc pars.arrayname).2 with
        | none => rw [hn] at h; cases h
        | some d =>
          rw [hn] at h
          simp only [Option.map_some', Option.some.injEq] at h
          rw [h]
  · intro connstr pars hf hp hbad
    unfold SciDBDataset.Open
    rw [hf]
    simp only []
    by_cases h1 : ¬ SciDBDataset.Identify poOpenInfo = true
    · rw [if_pos h1]
    rw [if_neg h1]
    by_cases h2 : poOpenInfo.eAccess = GDALAccess.GA_Update
    · rw [if_pos h2]
    rw [if_neg h2, hp]
    simp only []
    by_cases h3 : (client.getArrayDesc pars.arrayname).1 ≠ StatusCode.SUCCESS
    · rw [if_pos h3]
    rw [if_neg h3]
    by_cases h4 : (client.getArrayDesc pars.arrayname).2.dims.length ≠ 2
    · rw [if_pos h4]
    rcases hbad with hb | hb
    · exact absurd hb h3
    · exact absurd hb h4

/-- Witness of C14: for the connection string `SCIDB:array=line` and a gateway that describes
the one-dimensional array `line`, `Open` returns `NULL`; for `SCIDB:array=ndvi` and the
two-dimensional array `ndvi` it returns the dataset with its band. -/
theorem Open_two_dimensions_witness :
    SciDBDataset.Open (exampleUtils 512 512) (exampleServer lineArray)
      ⟨some "SCIDB:array=line", GDALAccess.GA_ReadOnly⟩ = some none ∧
    SciDBDataset.Open (exampleUtils 512 512) (exampleServer ndviArray)
      ⟨some "SCIDB:array=ndvi", GDALAccess.GA_ReadOnly⟩ = some (some (ndviDataset, [⟨1, 512, 256⟩])) ∧
    ((exampleServer ndviArray).getArrayDesc "ndvi").2.dims.length = 2 :=
  ⟨(Open_two_dimensions (exampleUtils 512 512) (exampleServer lineArray)
      ⟨some "SCIDB:array=line", GDALAccess.GA_ReadOnly⟩).2 "SCIDB:array=line"
      ⟨"line", "http://localhost", 8080, "scidb", "scidb"⟩ rfl (by decide)
      (Or.inr (by decide)), by decide, by decide⟩

/-- C15 (as stated, refuted): the source `geoSource` has a non-empty projection text and a
geotransform.  With a gateway that rejects `createArray`, `CreateCopy` returns `NULL` without
a call of `updateSRS`.  With a gateway that accepts it and a spatial reference without
authority (`exampleEnv`), the run ends in undefined behaviour before `updateSRS` is called. -/
theorem CreateCopy_no_updateSRS_after_failed_create :
    SciDBDataset.CreateCopy (exampleUtils 2 2) (openEnv ⟨geoArraySRS, 1, 1⟩) createFailClient
        (fun _ => 0) 0 ⟨0, 1, 0, 0, 0, 1⟩ "SCIDB:array=copy" "copy" geoSource
      = some ([ClientCall.createArray geoArray], none) ∧
    SciDBDataset.CreateCopy.callsBeforeCopy (exampleUtils 2 2) (openEnv ⟨geoArraySRS, 1, 1⟩)
        createFailClient 0 ⟨0, 1, 0, 0, 0, 1⟩ "copy" geoSource
      = [ClientCall.createArray geoArray] ∧
    SciDBDataset.CreateCopy.callsBeforeCopy (exampleUtils 2 2) exampleEnv (exampleClient 1) 0
        ⟨0, 1, 0, 0, 0, 1⟩ "copy" geoSource
      = [ClientCall.createArray geoArray] ∧
    SciDBDataset.CreateCopy (exampleUtils 2 2) exampleEnv (exampleClient 1) (fun _ => 0) 0
        ⟨0, 1, 0, 0, 0, 1⟩ "SCIDB:array=copy" "copy" geoSource = none ∧
    geoSource.GetProjectionRef ≠ "" ∧ geoSource.GetGeoTransform.isSome = true := by
  decide

/-- C15 (amended): for a source whose spatial reference has an authority name and code
whenever it has a projection text and a geotransform, `CreateCopy` calls `updateSRS` exactly
when `createArray` succeeded, the source has a non-empty WKT projection and a geotransform is
available: the calls it makes before its block loops contain an `updateSRS` under exactly
these conditions, after a successful `createArray` the run goes on into the data transfer
with exactly these calls made, the block loops of a run that returns add only `insertData`
and `removeArray` calls, and after a failed `createArray` it returns `NULL` at once.  On every
such call the array passed has the source's non-empty projection text as `srtext`, the affine
transform built from the source geotransform, and both axis names set to the default names,
so `isSpatial` holds for it when the default names are non-empty. -/
theorem CreateCopy_updateSRS_complete (U : Utils) (env : GDALEnv) (client : ShimClient)
    (garbage : Nat → Nat) (auth_srid0 : Nat) (t0 : AffineTransform)
    (pszFilename arrayname : String) (poSrcDS : GDALDataset)
    (hauth : poSrcDS.GetProjectionRef ≠ "" → poSrcDS.GetGeoTransform.isSome = true →
      (env.GetAuthorityName poSrcDS.GetProjectionRef).isSome = true ∧
      (env.GetAuthorityCode poSrcDS.GetProjectionRef).isSome = true) :
    ((∃ a, ClientCall.updateSRS a ∈ SciDBDataset.CreateCopy.callsBeforeCopy U env client
        auth_srid0 t0 arrayname poSrcDS) ↔
      (client.createArray (SciDBDataset.CreateCopy.array U auth_srid0 t0 arrayname poSrcDS)
          = StatusCode.SUCCESS ∧
        poSrcDS.GetProjectionRef ≠ "" ∧ poSrcDS.GetGeoTransform.isSome = true)) ∧
    (∀ a, ClientCall.updateSRS a ∈ SciDBDataset.CreateCopy.callsBeforeCopy U env client
        auth_srid0 t0 arrayname poSrcDS →
      a.srtext = poSrcDS.GetProjectionRef ∧ a.srtext ≠ "" ∧
      (∃ p, poSrcDS.GetGeoTransform = some p ∧
        a.affineTransform = AffineTransform.ofCoefficients (p 0) (p 3) (p 1) (p 5) (p 2) (p 4)) ∧
      a.xdim = U.SCIDB4GDAL_DEFAULT_XDIMNAME ∧ a.ydim = U.SCIDB4GDAL_DEFAULT_YDIMNAME ∧
      (U.SCIDB4GDAL_DEFAULT_XDIMNAME ≠ "" → U.SCIDB4GDAL_DEFAULT_YDIMNAME ≠ "" →
        a.isSpatial = true)) ∧
    (client.createArray (SciDBDataset.CreateCopy.array U auth_srid0 t0 arrayname poSrcDS)
        ≠ StatusCode.SUCCESS →
      SciDBDataset.CreateCopy U env client garbage auth_srid0 t0 pszFilename arrayname poSrcDS
        = some ([ClientCall.createArray
          (SciDBDataset.CreateCopy.array U auth_srid0 t0 arrayname poSrcDS)], none)) ∧
    (client.createArray (SciDBDataset.CreateCopy.array U auth_srid0 t0 arrayname poSrcDS)
        = StatusCode.SUCCESS →
      ∃ array2, SciDBDataset.CreateCopy U env client garbage auth_srid0 t0 pszFilename
          arrayname poSrcDS
        = SciDBDataset.CreateCopy.transfer U env client garbage pszFilename poSrcDS array2
            (SciDBDataset.CreateCopy.callsBeforeCopy U env client auth_srid0 t0 arrayname
              poSrcDS)) ∧
    (∀ res, SciDBDataset.CreateCopy U env client garbage auth_srid0 t0 pszFilename arrayname
        poSrcDS = some res →
      ∃ tail, res.1 = SciDBDataset.CreateCopy.callsBeforeCopy U env client auth_srid0 t0
          arrayname poSrcDS ++ tail ∧
        ∀ a, ClientCall.updateSRS a ∉ tail) := by
  have hdef : ∃ array2 srsCalls, SciDBDataset.CreateCopy.setSRS U env poSrcDS
      (SciDBDataset.CreateCopy.array U auth_srid0 t0 arrayname poSrcDS)
      = some (array2, srsCalls) := by
    by_cases hsk : poSrcDS.GetProjectionRef = "" ∨ poSrcDS.GetGeoTransform = none
    · exact ⟨_, _, CreateCopy_setSRS_skip U env poSrcDS _ hsk⟩
    · have hw : poSrcDS.GetProjectionRef ≠ "" := fun h => hsk (Or.inl h)
      obtain ⟨p, hg⟩ : ∃ p, poSrcDS.GetGeoTransform = some p := by
        cases hp : poSrcDS.GetGeoTransform with
        | none => exact absurd (Or.inr hp) hsk
        | some p => exact ⟨p, rfl⟩
      obtain ⟨h1, h2⟩ := hauth hw (by rw [hg]; rfl)
      obtain ⟨n, hn⟩ := Option.isSome_iff_exists.1 h1
      obtain ⟨c, hcode⟩ := Option.isSome_iff_exists.1 h2
      obtain ⟨a1, hs, -⟩ := CreateCopy_setSRS_sent U env poSrcDS
        (SciDBDataset.CreateCopy.array U auth_srid0 t0 arrayname poSrcDS) p n c hw hg hn hcode
      exact ⟨_, _, hs⟩
  refine ⟨?_, ?_, CreateCopy_failed_create U env client garbage auth_srid0 t0 pszFilename
    arrayname poSrcDS, ?_, ?_⟩
  rotate_left 2
  · intro hc
    obtain ⟨array2, srsCalls, hs⟩ := hdef
    exact ⟨array2, (CreateCopy_continues U env client garbage auth_srid0 t0 pszFilename
      arrayname poSrcDS hc array2 srsCalls hs).2⟩
  rotate_left 1
  · unfold SciDBDataset.CreateCopy.callsBeforeCopy
    simp only []
    by_cases hc : client.createArray (SciDBDataset.CreateCopy.array U auth_srid0 t0 arrayname
      poSrcDS) = StatusCode.SUCCESS
    swap
    · rw [if_pos hc]
      constructor
      · rintro ⟨a, ha⟩
        simp at ha
      · rintro ⟨hs, -⟩
        exact absurd hs hc
    rw [if_neg (not_not.2 hc)]
    by_cases hsk : poSrcDS.GetProjectionRef = "" ∨ poSrcDS.GetGeoTransform = none
    · rw [CreateCopy_setSRS_skip U env poSrcDS _ hsk]
      constructor
      · rintro ⟨a, ha⟩
        simp at ha
      · rintro ⟨-, hw, hg⟩
        rcases hsk with h | h
        · exact absurd h hw
        · rw [h] at hg; cases hg
    · have hw : poSrcDS.GetProjectionRef ≠ "" := fun h => hsk (Or.inl h)
      obtain ⟨p, hg⟩ : ∃ p, poSrcDS.GetGeoTransform = some p := by
        cases hp : poSrcDS.GetGeoTransform with
        | none => exact absurd (Or.inr hp) hsk
        | some p => exact ⟨p, rfl⟩
      obtain ⟨h1, h2⟩ := hauth hw (by rw [hg]; rfl)
      obtain ⟨n, hn⟩ := Option.isSome_iff_exists.1 h1
      obtain ⟨c, hcode⟩ := Option.isSome_iff_exists.1 h2
      obtain ⟨a1, hs, -⟩ := CreateCopy_setSRS_sent U env poSrcDS
        (SciDBDataset.CreateCopy.array U auth_srid0 t0 arrayname poSrcDS) p n c hw hg hn hcode
      rw [hs]
      constructor
      · intro _
        exact ⟨hc, hw, by rw [hg]; rfl⟩
      · intro _
        exact ⟨a1, by simp⟩
  · intro a ha
    unfold SciDBDataset.CreateCopy.callsBeforeCopy at ha
    simp only [] at ha
    by_cases hc : client.createArray (SciDBDataset.CreateCopy.array U auth_srid0 t0 arrayname
      poSrcDS) = StatusCode.SUCCESS
    swap
    · rw [if_pos hc] at ha
      simp at ha
    rw [if_neg (not_not.2 hc)] at ha
    by_cases hsk : poSrcDS.GetProjectionRef = "" ∨ poSrcDS.GetGeoTransform = none
    · rw [CreateCopy_setSRS_skip U env poSrcDS _ hsk] at ha
      simp at ha
    · have hw : poSrcDS.GetProjectionRef ≠ "" := fun h => hsk (Or.inl h)
      obtain ⟨p, hg⟩ : ∃ p, poSrcDS.GetGeoTransform = some p := by
        cases hp : poSrcDS.GetGeoTransform with
        | none => exact absurd (Or.inr hp) hsk
        | some p => exact ⟨p, rfl⟩
      obtain ⟨h1, h2⟩ := hauth hw (by rw [hg]; rfl)
      obtain ⟨n, hn⟩ := Option.isSome_iff_exists.1 h1
      obtain ⟨c, hcode⟩ := Option.isSome_iff_exists.1 h2
      obtain ⟨a1, hs, e1, e2, e3, e4, -⟩ := CreateCopy_setSRS_sent U env poSrcDS
        (SciDBDataset.CreateCopy.array U auth_srid0 t0 arrayname poSrcDS) p n c hw hg hn hcode
      rw [hs] at ha
      simp only [List.mem_cons, List.mem_singleton, List.not_mem_nil, or_false] at ha
      rcases ha with ha | ha
      · cases ha
      · cases ha
        refine ⟨e1, by rw [e1]; exact hw, ⟨p, hg, e2⟩, e3, e4, ?_⟩
        intro hx hy
        have f1 : a.toSciDBSpatialReference.xdim ≠ "" := by rw [← e3] at hx; exact hx
        have f2 : a.toSciDBSpatialReference.ydim ≠ "" := by rw [← e4] at hy; exact hy
        have f3 : a.toSciDBSpatialReference.srtext ≠ "" := by rw [← e1] at hw; exact hw
        simp [SciDBSpatialReference.isSpatial, f1, f2, f3]
  · intro res hres
    obtain ⟨tail, ht, hall⟩ := CreateCopy_calls U env client garbage auth_srid0 t0 pszFilename
      arrayname poSrcDS res hres
    refine ⟨tail, ht, ?_⟩
    intro a hmem
    have := hall _ hmem
    simp [ClientCall.isTransfer] at this

/-- Witness of C15: the georeferenced source `geoSource` with a gateway that accepts every
call; the calls before the block loops are `createArray` and `updateSRS` for `geoArraySRS`,
and the run returns with these calls followed by one `insertData`. -/
theorem CreateCopy_updateSRS_complete_witness :
    SciDBDataset.CreateCopy.callsBeforeCopy (exampleUtils 2 2) (openEnv ⟨geoArraySRS, 1, 1⟩)
        (exampleClient 1) 0 ⟨0, 1, 0, 0, 0, 1⟩ "copy" geoSource
      = [ClientCall.createArray geoArray, ClientCall.updateSRS geoArraySRS] ∧
    SciDBDataset.CreateCopy (exampleUtils 2 2) (openEnv ⟨geoArraySRS, 1, 1⟩) (exampleClient 1)
        (fun _ => 0) 0 ⟨0, 1, 0, 0, 0, 1⟩ "SCIDB:array=copy" "copy" geoSource
      = some ([ClientCall.createArray geoArray, ClientCall.updateSRS geoArraySRS,
          ClientCall.insertData geoArraySRS [100, 101, 0, 0, 0, 0, 0, 0] ⟨0, 0, 0, 0⟩],
          some ⟨geoArraySRS, 1, 1⟩) ∧
    (∃ a, ClientCall.updateSRS a ∈ SciDBDataset.CreateCopy.callsBeforeCopy (exampleUtils 2 2)
      (openEnv ⟨geoArraySRS, 1, 1⟩) (exampleClient 1) 0 ⟨0, 1, 0, 0, 0, 1⟩ "copy" geoSource) ∧
    geoArraySRS.isSpatial = true ∧
    geoArraySRS.affineTransform = AffineTransform.ofCoefficients 100 200 10 (-10) 0 0 :=
  have hcalls : SciDBDataset.CreateCopy.callsBeforeCopy (exampleUtils 2 2)
      (openEnv ⟨geoArraySRS, 1, 1⟩) (exampleClient 1) 0 ⟨0, 1, 0, 0, 0, 1⟩ "copy" geoSource
      = [ClientCall.createArray geoArray, ClientCall.updateSRS geoArraySRS] := by decide
  have h := CreateCopy_updateSRS_complete (exampleUtils 2 2) (openEnv ⟨geoArraySRS, 1, 1⟩)
    (exampleClient 1) (fun _ => 0) 0 ⟨0, 1, 0, 0, 0, 1⟩ "SCIDB:array=copy" "copy" geoSource
    (fun _ _ => ⟨rfl, rfl⟩)
  ⟨hcalls, by decide, h.1.2 ⟨by decide, by decide, by decide⟩,
    (h.2.1 geoArraySRS (by rw [hcalls]; simp)).2.2.2.2.2 (by decide) (by decide), by decide⟩

/-- C16: for the connection string `array=test`, which names no host, the parsed host is the
default `https://localhost` while `ssl` is whatever value the constructor left in the member,
so it is `false` whenever that value is. -/
theorem parseConnectionString_ssl_default_host :
    ∀ ssl0 : Bool, (ConnectionPars.parseConnectionString ssl0 "array=test").map
      (fun p => (p.host, p.ssl)) = some ("https://localhost", ssl0) := by
  decide

/-- C17 (as stated, refuted): the connection string `host=http://example.org array=a` gives
no port and a plain `http` host, and the parsed port is 8083, not 8080; with the parser of
`scidbdriver.cpp` the string `SCIDB:host=https://example.org array=a` gives the port 8080,
not 8083. -/
theorem parseConnectionString_port_ignores_scheme :
    (ConnectionPars.parseConnectionString true "host=http://example.org array=a").map
      (fun p => (p.host, p.ssl, p.port)) = some ("http://example.org", false, 8083) ∧
    (scidbdriver.ConnectionPars.parseConnectionString
        "SCIDB:host=https://example.org array=a").map
      (fun p => (p.host, p.port)) = some ("https://example.org", 8080) := by
  decide

/-- C17 (amended): for every connection string none of whose parts is `port=value`, the
parsed port is the fixed default of the constructor, whatever the host: 8083 for the parser
of `shim_client_structs.h`, and 8080 for the parser of `scidbdriver.cpp` (which reads the
string after its prefix `SCIDB:`). -/
theorem parseConnectionString_default_port (ssl0 : Bool) (connstr : String)
    (hport : givesKey "port" connstr.data = false) :
    (∃ pars, ConnectionPars.parseConnectionString ssl0 connstr = some pars ∧
      pars.port = 8083) ∧
    (∃ pars, scidbdriver.ConnectionPars.parseConnectionString ("SCIDB:" ++ connstr) =
        some pars ∧ pars.port = 8080) := by
  have h := givesKey_false "port" connstr.data hport
  constructor
  · exact foldlM_port _ h (ConnectionPars.new ssl0)
  · have hd : ("SCIDB:" ++ connstr).data = "SCIDB:".data ++ connstr.data := rfl
    have hlen : ¬ ("SCIDB:" ++ connstr).data.length < 6 := by
      rw [hd, List.length_append]
      have : "SCIDB:".data.length = 6 := by decide
      omega
    have hdrop : ("SCIDB:" ++ connstr).data.drop 6 = connstr.data := by
      rw [hd]
      rfl
    unfold scidbdriver.ConnectionPars.parseConnectionString
    rw [if_neg hlen, hdrop]
    exact driver_foldlM_port _ h scidbdriver.ConnectionPars.new

/-- Witness of C17: the connection string `host=http://example.org array=a` has no `port`
part. -/
theorem parseConnectionString_default_port_witness :
    givesKey "port" "host=http://example.org array=a".data = false ∧
    ((∃ pars, ConnectionPars.parseConnectionString false "host=http://example.org array=a" =
        some pars ∧ pars.port = 8083) ∧
      (∃ pars, scidbdriver.ConnectionPars.parseConnectionString
          ("SCIDB:" ++ "host=http://example.org array=a") = some pars ∧ pars.port = 8080)) :=
  ⟨by decide, parseConnectionString_default_port false _ (by decide)⟩

/-- C18: eight of the nine endpoint constants are the paths the interface names;
`SHIMENDPOINT_READ_LINES` is `/read_lines` followed by a blank. -/
theorem SHIMENDPOINT_READ_LINES_trailing_blank :
    SHIMENDPOINT_LOGIN = "/login" ∧ SHIMENDPOINT_LOGOUT = "/logout" ∧
    SHIMENDPOINT_NEW_SESSION = "/new_session" ∧
    SHIMENDPOINT_RELEASE_SESSION = "/release_session" ∧
    SHIMENDPOINT_EXECUTEQUERY = "/execute_query" ∧
    SHIMENDPOINT_READ_BYTES = "/read_bytes" ∧
    SHIMENDPOINT_UPLOAD_FILE = "/upload_file" ∧
    SHIMENDPOINT_VERSION = "/version" ∧
    SHIMENDPOINT_READ_LINES = "/read_lines " ∧
    SHIMENDPOINT_READ_LINES ≠ "/read_lines" ∧
    SHIMENDPOINT_READ_LINES.length = "/read_lines".length + 1 := by
  decide

/-- C21, the code at a failing input: for the dimensions `t`, `x` with `xdim = "x"` and a
`ydim` that names no dimension (`"y"`), and likewise with `ydim = xdim = "x"`,
`deriveDimensionIndexes` sets both the x index and the y index to 1. -/
theorem deriveDimensionIndexes_indexes_coincide :
    (mismatchArray.deriveDimensionIndexes (exampleUtils 512 512)).map
      (fun a => (a._x_idx, a._y_idx)) = some (1, 1) ∧
    (SciDBSpatialArray.deriveDimensionIndexes (exampleUtils 512 512)
      { mismatchArray with ydim := "x" }).map (fun a => (a._x_idx, a._y_idx))
      = some (1, 1) := by
  decide

/-- C22, the code at a failing input: in `host=https://example.org foo=bar` the part
`foo=bar` has an unrecognised key, and the parsed host is `bar` with `ssl = false`, while the
string without that part gives the host `https://example.org` with `ssl = true`. -/
theorem parseConnectionString_unknown_key_sets_host : ∀ ssl0 : Bool,
    (ConnectionPars.parseConnectionString ssl0 "host=https://example.org foo=bar").map
      (fun p => (p.host, p.ssl)) = some ("bar", false) ∧
    (ConnectionPars.parseConnectionString ssl0 "host=https://example.org").map
      (fun p => (p.host, p.ssl)) = some ("https://example.org", true) := by
  decide

/-- C23, the code at a failing input: for the properties string `src_win:0 0 50 50 7`, whose
`src_win` value has five fields, `parsePropertiesString` writes `src_coords[4]`, outside the
four-element array; with four fields it returns. -/
theorem parsePropertiesString_fifth_field_out_of_bounds :
    SelectProperties.parsePropertiesString 0 exampleFloat "src_win:0 0 50 50 7"
      = Except.error (ParseFault.out_of_bounds 4) ∧
    SelectProperties.parsePropertiesString 0 exampleFloat "src_win:0 0 50 50;t=3"
      = Except.ok ⟨[0, 0, 50, 50], 3⟩ :=
  ⟨rfl, rfl⟩

end scidb4gdal
